import Mathlib

set_option maxHeartbeats 1000000

/-
Shallow embedding of the seval numeric-literal scanner
(src/include/seval.hpp, the C++17 code paths, which are the ones the
repository compiles: src/seval.hpp uses an unguarded `if constexpr`).

Integral target types are modelled bit-exactly: the accumulator is the
unsigned bit pattern (a natural number below 2^width) and every
arithmetic step reduces modulo 2^width, matching native fixed-width
wraparound semantics; the final value is read back through a
two's-complement interpretation.  Floating-point target types are
modelled over the rationals (exact arithmetic); the floating-point
claims verified here do not depend on rounding.
-/

namespace seval

/-- The NUL character terminating every scanned source. -/
def sentinel : Char := Char.ofNat 0

/-- Reading the source at index `i`; positions past the end of the list read
as the terminating sentinel, as in a NUL-terminated C string. -/
def charAt (s : List Char) (i : Nat) : Char := s.getD i sentinel

/-- Source predicate `is_binary_ch`: the character is '0' or '1'. -/
def is_binary_ch (c : Char) : Bool := decide (c = '0') || decide (c = '1')

/-- Source predicate `is_decimal_ch`: '0' (48) ≤ c ≤ '9' (57). -/
def is_decimal_ch (c : Char) : Bool := decide (48 ≤ c.toNat) && decide (c.toNat ≤ 57)

/-- Source predicate `is_lower_hex_ch`: 'a' (97) ≤ c ≤ 'f' (102). -/
def is_lower_hex_ch (c : Char) : Bool := decide (97 ≤ c.toNat) && decide (c.toNat ≤ 102)

/-- Source predicate `is_upper_hex_ch`: 'A' (65) ≤ c ≤ 'F' (70). -/
def is_upper_hex_ch (c : Char) : Bool := decide (65 ≤ c.toNat) && decide (c.toNat ≤ 70)

/-- Source predicate `is_hexadecimal_ch`: decimal, lower hex or upper hex. -/
def is_hexadecimal_ch (c : Char) : Bool :=
  is_decimal_ch c || is_lower_hex_ch c || is_upper_hex_ch c

/-- Source `evaluate_decimal_ch`: ch - '0', on the unsigned pattern. -/
def evaluate_decimal_ch_nat (c : Char) : Nat := c.toNat - 48

/-- Source `evaluate_lower_hex_ch`: ch - 'a' + 10. -/
def evaluate_lower_hex_ch_nat (c : Char) : Nat := c.toNat - 97 + 10

/-- Source `evaluate_upper_hex_ch`: ch - 'A' + 10. -/
def evaluate_upper_hex_ch_nat (c : Char) : Nat := c.toNat - 65 + 10

/-- Source `evaluate_hexadecimal_ch`. -/
def evaluate_hexadecimal_ch_nat (c : Char) : Nat :=
  if is_decimal_ch c then evaluate_decimal_ch_nat c
  else if is_lower_hex_ch c then evaluate_lower_hex_ch_nat c
  else if is_upper_hex_ch c then evaluate_upper_hex_ch_nat c
  else 0

/-- Source `evaluate_binary_ch`. -/
def evaluate_binary_ch_nat (c : Char) : Nat :=
  if is_binary_ch c then evaluate_decimal_ch_nat c else 0

/-- Source `evaluate_decimal_ch` for a floating-point target: (T)(ch - '0'). -/
def evaluate_decimal_ch_rat (c : Char) : ℚ := (c.toNat : ℚ) - 48

/-- Source enum `Sign`. -/
inductive Sign where
  | negative
  | positive
  | none

/-- Numeric value of the `Sign` enum (SIGN_NEGATIVE = -1, SIGN_POSITIVE = 1,
SIGN_NONE = 0). -/
def Sign.toInt : Sign → ℤ
  | Sign.negative => -1
  | Sign.positive => 1
  | Sign.none => 0

/-- Source `get_sign`. -/
def get_sign (s : List Char) (i : Nat) : Sign :=
  if charAt s i = '-' then Sign.negative
  else if charAt s i = '+' then Sign.positive
  else Sign.none

/-- Source `has_binary_prefix`: '0' then 'b' or 'B', a two-character lookahead. -/
def has_binary_prefix_at (s : List Char) (i : Nat) : Bool :=
  decide (charAt s i = '0') && (decide (charAt s (i + 1) = 'b') || decide (charAt s (i + 1) = 'B'))

/-- Source `has_hexadecimal_prefix`: '0' then 'x' or 'X'. -/
def has_hexadecimal_prefix_at (s : List Char) (i : Nat) : Bool :=
  decide (charAt s i = '0') && (decide (charAt s (i + 1) = 'x') || decide (charAt s (i + 1) = 'X'))

/-- A fixed-width integral target type: its bit width and signedness. -/
structure IntTy where
  width : Nat
  signed : Bool

/-- The number of bit patterns of the type: 2^width. -/
def IntTy.modulus (t : IntTy) : Nat := 2 ^ t.width

/-- Two's-complement readback of a bit pattern as a mathematical integer. -/
def IntTy.toInt (t : IntTy) (u : Nat) : ℤ :=
  if t.signed ∧ 2 ^ (t.width - 1) ≤ u then (u : ℤ) - (t.modulus : ℤ) else (u : ℤ)

/-- One decimal accumulation step of the C++17 integral branch:
`number = (number << 3) + (number << 1) + evaluate_decimal_ch(ch)`,
i.e. 8u + 2u + digit, reduced to the target width. -/
def decStepI (t : IntTy) (u : Nat) (c : Char) : Nat :=
  (u * 8 + u * 2 + evaluate_decimal_ch_nat c) % t.modulus

/-- One hexadecimal accumulation step of the C++17 integral branch:
`number = (number << 4) | evaluate_hexadecimal_ch(ch)` on the bit pattern. -/
def hexStepI (t : IntTy) (u : Nat) (c : Char) : Nat :=
  Nat.lor (u * 16 % t.modulus) (evaluate_hexadecimal_ch_nat c)

/-- One binary accumulation step of the C++17 integral branch:
`number = (number << 1) | evaluate_binary_ch(ch)` on the bit pattern. -/
def binStepI (t : IntTy) (u : Nat) (c : Char) : Nat :=
  Nat.lor (u * 2 % t.modulus) (evaluate_binary_ch_nat c)

/-- One decimal accumulation step for a floating-point target:
`number = number * 10 + evaluate_decimal_ch(ch)`. -/
def decStepQ (v : ℚ) (c : Char) : ℚ := v * 10 + evaluate_decimal_ch_rat c

/-- One fractional accumulation step: the state is (number, decimalPlace);
`number += evaluate_decimal_ch(ch) * decimalPlace; decimalPlace /= 10`. -/
def fracStepQ (p : ℚ × ℚ) (c : Char) : ℚ × ℚ :=
  (p.1 + evaluate_decimal_ch_rat c * p.2, p.2 / 10)

/-- One exponent-digit step: `exponent = (exponent << 3) + (exponent << 1) + d`
on a 32-bit wrapping C int. -/
def expStep (e : ℤ) (c : Char) : ℤ :=
  Int.bmod (e * 8 + e * 2 + ((c.toNat : ℤ) - 48)) (2 ^ 32)

/-- The digit loop of the hex/binary stages for a floating-point target in the
C++17 branch only advances the cursor; the accumulator is untouched. -/
def skipStepQ (v : ℚ) (_c : Char) : ℚ := v

/-- Fuel-indexed scanning loop: while the current character is not the
sentinel and satisfies `g`, fold it into the state with `f` and advance.
The fuel only bounds the recursion; `scanLoop` supplies enough of it. -/
def scanLoopF {α : Type} (g : Char → Bool) (f : α → Char → α) (s : List Char) :
    Nat → α → Nat → α × Nat
  | 0, st, i => (st, i)
  | fuel + 1, st, i =>
    if charAt s i ≠ sentinel ∧ g (charAt s i) then
      scanLoopF g f s fuel (f st (charAt s i)) (i + 1)
    else (st, i)

/-- The scanning loop shared by all unbounded digit stages. -/
def scanLoop {α : Type} (g : Char → Bool) (f : α → Char → α) (s : List Char)
    (st : α) (i : Nat) : α × Nat :=
  scanLoopF g f s (s.length - i) st i

/-- Fuel-indexed bounded scanning loop: additionally requires
`cnt < maxLength` (`_cnti_can_iterate`) before each character, and advances
`cnt` together with the cursor (`_cnti_next`). -/
def scanLoopNF {α : Type} (g : Char → Bool) (f : α → Char → α) (s : List Char)
    (maxLength : Nat) : Nat → α → Nat → Nat → α × Nat × Nat
  | 0, st, i, cnt => (st, i, cnt)
  | fuel + 1, st, i, cnt =>
    if charAt s i ≠ sentinel ∧ g (charAt s i) ∧ cnt < maxLength then
      scanLoopNF g f s maxLength fuel (f st (charAt s i)) (i + 1) (cnt + 1)
    else (st, i, cnt)

/-- The scanning loop shared by all bounded digit stages; returns the state,
the final cursor and the final counter. -/
def scanLoopN {α : Type} (g : Char → Bool) (f : α → Char → α) (s : List Char)
    (maxLength : Nat) (st : α) (i : Nat) (cnt : Nat) : α × Nat × Nat :=
  scanLoopNF g f s maxLength (s.length - i) st i cnt

/-- Source `_get_cnti`: the counter starts at the current cursor when sign and
base prefix are charged to the cap, else at 0. -/
def _get_cnti (i : Nat) (consideSignAndPrefixInMaxLength : Bool) : Nat :=
  if consideSignAndPrefixInMaxLength then i else 0

/-- Source `evaluate_decimal_literal`, C++17 integral branch.  Note the loop
guard in the source is `is_hexadecimal_ch`, not `is_decimal_ch`. -/
def evaluate_decimal_literal_int (t : IntTy) (s : List Char) (u : Nat) (i : Nat) : Nat × Nat :=
  scanLoop is_hexadecimal_ch (decStepI t) s u i

/-- Source `evaluate_hexadecimal_literal`, C++17 integral branch. -/
def evaluate_hexadecimal_literal_int (t : IntTy) (s : List Char) (u : Nat) (i : Nat) : Nat × Nat :=
  scanLoop is_hexadecimal_ch (hexStepI t) s u i

/-- Source `evaluate_binary_literal`, C++17 integral branch. -/
def evaluate_binary_literal_int (t : IntTy) (s : List Char) (u : Nat) (i : Nat) : Nat × Nat :=
  scanLoop is_binary_ch (binStepI t) s u i

/-- Source `evaluate_decimal_literal`, C++17 floating-point branch (the loop
guard is again `is_hexadecimal_ch`). -/
def evaluate_decimal_literal_rat (s : List Char) (v : ℚ) (i : Nat) : ℚ × Nat :=
  scanLoop is_hexadecimal_ch decStepQ s v i

/-- Source `evaluate_hexadecimal_literal`, C++17 floating-point branch: the
cursor advances over hex digits but nothing is accumulated. -/
def evaluate_hexadecimal_literal_rat (s : List Char) (v : ℚ) (i : Nat) : ℚ × Nat :=
  scanLoop is_hexadecimal_ch skipStepQ s v i

/-- Source `evaluate_binary_literal`, C++17 floating-point branch: the cursor
advances over binary digits but nothing is accumulated. -/
def evaluate_binary_literal_rat (s : List Char) (v : ℚ) (i : Nat) : ℚ × Nat :=
  scanLoop is_binary_ch skipStepQ s v i

/-- Source `evaluate_floatpoint_literal` (the fractional stage). -/
def evaluate_floatpoint_literal_rat (s : List Char) (v : ℚ) (i : Nat) (place : ℚ) : ℚ × Nat :=
  let w := scanLoop is_decimal_ch fracStepQ s (v, place) i
  (w.1.1, w.2)

/-- Source `evaluate_exponent_literal`: consume 'e'/'E', an optional exponent
sign, the exponent digits, then multiply by 10^(expSign * exponent). -/
def evaluate_exponent_literal_rat (s : List Char) (v : ℚ) (i : Nat) : ℚ × Nat :=
  if charAt s i = 'e' ∨ charAt s i = 'E' then
    let j := i + 1
    let p : ℤ × Nat :=
      if charAt s j = '-' then (-1, j + 1)
      else if charAt s j = '+' then (1, j + 1)
      else (1, j)
    let w := scanLoop is_decimal_ch expStep s 0 p.2
    (v * (10 : ℚ) ^ (p.1 * w.1), w.2)
  else (v, i)

/-- The sign-detection stage shared by `evaluate` and `evaluate_n`: the sign
defaults to positive; a detected sign is recorded and its character eaten. -/
def sign_stage (s : List Char) (consideSign : Bool) : Sign × Nat :=
  if consideSign then
    match get_sign s 0 with
    | Sign.none => (Sign.positive, 0)
    | g => (g, 1)
  else (Sign.positive, 0)

/-- The final `number * sign` of the source on bit patterns: multiplying by
SIGN_NEGATIVE (-1) in the target type yields the two's-complement negation
pattern; multiplying by SIGN_POSITIVE leaves the pattern unchanged.  (At the
return site the sign is never SIGN_NONE.) -/
def mulSignPat (t : IntTy) (g : Sign) (u : Nat) : Nat :=
  match g with
  | Sign.negative => (t.modulus - u % t.modulus) % t.modulus
  | _ => u

/-- The prefix-dispatch of `evaluate` for an integral target: binary prefix
first, then hexadecimal, else the decimal stage, starting from accumulator 0. -/
def base_literal_int (t : IntTy) (s : List Char) (consideHex consideBinary : Bool)
    (i : Nat) : Nat × Nat :=
  if consideBinary && has_binary_prefix_at s i then
    evaluate_binary_literal_int t s 0 (i + 2)
  else if consideHex && has_hexadecimal_prefix_at s i then
    evaluate_hexadecimal_literal_int t s 0 (i + 2)
  else
    evaluate_decimal_literal_int t s 0 i

/-- Source `evaluate` for an integral target type: the accumulated bit
pattern and the final cursor.  The floating-point stages are compile-time
disabled for integral `T`. -/
def evaluate_int_full (t : IntTy) (s : List Char)
    (consideSign consideFloatPoint consideHex consideBinary consideExponent : Bool) :
    Nat × Nat :=
  let p := sign_stage s consideSign
  let q := base_literal_int t s consideHex consideBinary p.2
  ((if consideSign then mulSignPat t p.1 q.1 else q.1), q.2)

/-- Source `evaluate` for an integral target type, read back as an integer. -/
def evaluate_int (t : IntTy) (s : List Char)
    (consideSign consideFloatPoint consideHex consideBinary consideExponent : Bool) : ℤ :=
  t.toInt (evaluate_int_full t s consideSign consideFloatPoint consideHex consideBinary
    consideExponent).1

/-- The prefix-dispatch of `evaluate` for a floating-point target. -/
def base_literal_rat (s : List Char) (consideHex consideBinary : Bool) (i : Nat) : ℚ × Nat :=
  if consideBinary && has_binary_prefix_at s i then
    evaluate_binary_literal_rat s 0 (i + 2)
  else if consideHex && has_hexadecimal_prefix_at s i then
    evaluate_hexadecimal_literal_rat s 0 (i + 2)
  else
    evaluate_decimal_literal_rat s 0 i

/-- Source `evaluate` for a floating-point target type: the value (exact
rational arithmetic) and the final cursor. -/
def evaluate_rat_full (s : List Char)
    (consideSign consideFloatPoint consideHex consideBinary consideExponent : Bool) :
    ℚ × Nat :=
  let p := sign_stage s consideSign
  let q := base_literal_rat s consideHex consideBinary p.2
  let r :=
    if consideFloatPoint ∧ charAt s q.2 = '.' then
      evaluate_floatpoint_literal_rat s q.1 (q.2 + 1) (1 / 10)
    else q
  let w :=
    if consideFloatPoint ∧ consideExponent then
      evaluate_exponent_literal_rat s r.1 r.2
    else r
  ((if consideSign then w.1 * ((Sign.toInt p.1 : ℤ) : ℚ) else w.1), w.2)

/-- Source `evaluate` for a floating-point target type. -/
def evaluate_rat (s : List Char)
    (consideSign consideFloatPoint consideHex consideBinary consideExponent : Bool) : ℚ :=
  (evaluate_rat_full s consideSign consideFloatPoint consideHex consideBinary
    consideExponent).1

/-- Source `SIZE_MAX`, the default cap of `evaluate_n` on a 64-bit size_t. -/
def SIZE_MAX : Nat := 2 ^ 64 - 1

/-- Source `evaluate_decimal_literal_n`, C++17 integral branch.  Returns the
accumulator pattern, the final cursor, and how many characters the digit loop
consumed (the counter's advance past its `_get_cnti` starting point). -/
def evaluate_decimal_literal_n_int (t : IntTy) (s : List Char) (u : Nat) (i : Nat)
    (maxLength : Nat) (consideSignAndPrefixInMaxLength : Bool) : Nat × Nat × Nat :=
  let cnt0 := _get_cnti i consideSignAndPrefixInMaxLength
  let r := scanLoopN is_hexadecimal_ch (decStepI t) s maxLength u i cnt0
  (r.1, r.2.1, r.2.2 - cnt0)

/-- Source `evaluate_hexadecimal_literal_n`, C++17 integral branch. -/
def evaluate_hexadecimal_literal_n_int (t : IntTy) (s : List Char) (u : Nat) (i : Nat)
    (maxLength : Nat) (consideSignAndPrefixInMaxLength : Bool) : Nat × Nat × Nat :=
  let cnt0 := _get_cnti i consideSignAndPrefixInMaxLength
  let r := scanLoopN is_hexadecimal_ch (hexStepI t) s maxLength u i cnt0
  (r.1, r.2.1, r.2.2 - cnt0)

/-- Source `evaluate_binary_literal_n`, C++17 integral branch. -/
def evaluate_binary_literal_n_int (t : IntTy) (s : List Char) (u : Nat) (i : Nat)
    (maxLength : Nat) (consideSignAndPrefixInMaxLength : Bool) : Nat × Nat × Nat :=
  let cnt0 := _get_cnti i consideSignAndPrefixInMaxLength
  let r := scanLoopN is_binary_ch (binStepI t) s maxLength u i cnt0
  (r.1, r.2.1, r.2.2 - cnt0)

/-- Source `evaluate_decimal_literal_n`, C++17 floating-point branch. -/
def evaluate_decimal_literal_n_rat (s : List Char) (v : ℚ) (i : Nat)
    (maxLength : Nat) (consideSignAndPrefixInMaxLength : Bool) : ℚ × Nat × Nat :=
  let cnt0 := _get_cnti i consideSignAndPrefixInMaxLength
  let r := scanLoopN is_hexadecimal_ch decStepQ s maxLength v i cnt0
  (r.1, r.2.1, r.2.2 - cnt0)

/-- Source `evaluate_hexadecimal_literal_n`, C++17 floating-point branch
(cursor and counter advance, no accumulation). -/
def evaluate_hexadecimal_literal_n_rat (s : List Char) (v : ℚ) (i : Nat)
    (maxLength : Nat) (consideSignAndPrefixInMaxLength : Bool) : ℚ × Nat × Nat :=
  let cnt0 := _get_cnti i consideSignAndPrefixInMaxLength
  let r := scanLoopN is_hexadecimal_ch skipStepQ s maxLength v i cnt0
  (r.1, r.2.1, r.2.2 - cnt0)

/-- Source `evaluate_binary_literal_n`, C++17 floating-point branch. -/
def evaluate_binary_literal_n_rat (s : List Char) (v : ℚ) (i : Nat)
    (maxLength : Nat) (consideSignAndPrefixInMaxLength : Bool) : ℚ × Nat × Nat :=
  let cnt0 := _get_cnti i consideSignAndPrefixInMaxLength
  let r := scanLoopN is_binary_ch skipStepQ s maxLength v i cnt0
  (r.1, r.2.1, r.2.2 - cnt0)

/-- Source `evaluate_floatpoint_literal_n` (the bounded fractional stage). -/
def evaluate_floatpoint_literal_n_rat (s : List Char) (v : ℚ) (i : Nat) (place : ℚ)
    (maxLength : Nat) (consideSignAndPrefixInMaxLength : Bool) : ℚ × Nat × Nat :=
  let cnt0 := _get_cnti i consideSignAndPrefixInMaxLength
  let r := scanLoopN is_decimal_ch fracStepQ s maxLength (v, place) i cnt0
  (r.1.1, r.2.1, r.2.2 - cnt0)

/-- Source `evaluate_exponent_literal_n`: the 'e'/'E' marker and an optional
exponent sign are consumed through `_cnti_next` without a cap check; only the
digit loop is gated by the cap.  The third component counts the digits the
loop consumed. -/
def evaluate_exponent_literal_n_rat (s : List Char) (v : ℚ) (i : Nat)
    (maxLength : Nat) (consideSignAndPrefixInMaxLength : Bool) : ℚ × Nat × Nat :=
  let cnt0 := _get_cnti i consideSignAndPrefixInMaxLength
  if charAt s i = 'e' ∨ charAt s i = 'E' then
    let j := i + 1
    let c1 := cnt0 + 1
    let p : ℤ × Nat × Nat :=
      if charAt s j = '-' then (-1, j + 1, c1 + 1)
      else if charAt s j = '+' then (1, j + 1, c1 + 1)
      else (1, j, c1)
    let w := scanLoopN is_decimal_ch expStep s maxLength 0 p.2.1 p.2.2
    (v * (10 : ℚ) ^ (p.1 * w.1), w.2.1, w.2.2 - p.2.2)
  else (v, i, 0)

/-- The prefix-dispatch of `evaluate_n` for an integral target. -/
def base_literal_n_int (t : IntTy) (s : List Char) (consideHex consideBinary : Bool)
    (i : Nat) (maxLength : Nat) (consideSignAndPrefixInMaxLength : Bool) : Nat × Nat × Nat :=
  if consideBinary && has_binary_prefix_at s i then
    evaluate_binary_literal_n_int t s 0 (i + 2) maxLength consideSignAndPrefixInMaxLength
  else if consideHex && has_hexadecimal_prefix_at s i then
    evaluate_hexadecimal_literal_n_int t s 0 (i + 2) maxLength consideSignAndPrefixInMaxLength
  else
    evaluate_decimal_literal_n_int t s 0 i maxLength consideSignAndPrefixInMaxLength

/-- Source `evaluate_n` for an integral target type: the bit pattern, the
final cursor, and the total number of characters consumed by digit loops. -/
def evaluate_n_int_full (t : IntTy) (s : List Char) (maxLength : Nat)
    (consideSignAndPrefixInMaxLength consideSign consideFloatPoint consideHex consideBinary
      consideExponent : Bool) : Nat × Nat × Nat :=
  let p := sign_stage s consideSign
  let q := base_literal_n_int t s consideHex consideBinary p.2 maxLength
    consideSignAndPrefixInMaxLength
  ((if consideSign then mulSignPat t p.1 q.1 else q.1), q.2.1, q.2.2)

/-- Source `evaluate_n` for an integral target type, read back as an integer. -/
def evaluate_n_int (t : IntTy) (s : List Char) (maxLength : Nat)
    (consideSignAndPrefixInMaxLength consideSign consideFloatPoint consideHex consideBinary
      consideExponent : Bool) : ℤ :=
  t.toInt (evaluate_n_int_full t s maxLength consideSignAndPrefixInMaxLength consideSign
    consideFloatPoint consideHex consideBinary consideExponent).1

/-- The prefix-dispatch of `evaluate_n` for a floating-point target. -/
def base_literal_n_rat (s : List Char) (consideHex consideBinary : Bool)
    (i : Nat) (maxLength : Nat) (consideSignAndPrefixInMaxLength : Bool) : ℚ × Nat × Nat :=
  if consideBinary && has_binary_prefix_at s i then
    evaluate_binary_literal_n_rat s 0 (i + 2) maxLength consideSignAndPrefixInMaxLength
  else if consideHex && has_hexadecimal_prefix_at s i then
    evaluate_hexadecimal_literal_n_rat s 0 (i + 2) maxLength consideSignAndPrefixInMaxLength
  else
    evaluate_decimal_literal_n_rat s 0 i maxLength consideSignAndPrefixInMaxLength

/-- Source `evaluate_n` for a floating-point target type: value, final
cursor, and the total number of characters consumed by digit loops.  The
fractional stage is additionally gated by `maxLength > i` at the dot. -/
def evaluate_n_rat_full (s : List Char) (maxLength : Nat)
    (consideSignAndPrefixInMaxLength consideSign consideFloatPoint consideHex consideBinary
      consideExponent : Bool) : ℚ × Nat × Nat :=
  let p := sign_stage s consideSign
  let q := base_literal_n_rat s consideHex consideBinary p.2 maxLength
    consideSignAndPrefixInMaxLength
  let r :=
    if consideFloatPoint ∧ charAt s q.2.1 = '.' ∧ maxLength > q.2.1 then
      let x := evaluate_floatpoint_literal_n_rat s q.1 (q.2.1 + 1) (1 / 10) maxLength
        consideSignAndPrefixInMaxLength
      (x.1, x.2.1, q.2.2 + x.2.2)
    else q
  let w :=
    if consideFloatPoint ∧ consideExponent then
      let y := evaluate_exponent_literal_n_rat s r.1 r.2.1 maxLength
        consideSignAndPrefixInMaxLength
      (y.1, y.2.1, r.2.2 + y.2.2)
    else r
  ((if consideSign then w.1 * ((Sign.toInt p.1 : ℤ) : ℚ) else w.1), w.2.1, w.2.2)

/-- Source `evaluate_n` for a floating-point target type. -/
def evaluate_n_rat (s : List Char) (maxLength : Nat)
    (consideSignAndPrefixInMaxLength consideSign consideFloatPoint consideHex consideBinary
      consideExponent : Bool) : ℚ :=
  (evaluate_n_rat_full s maxLength consideSignAndPrefixInMaxLength consideSign
    consideFloatPoint consideHex consideBinary consideExponent).1

/-- The signed 8-bit target type (int8_t). -/
def i8 : IntTy := ⟨8, true⟩

/-- The unsigned 8-bit target type (uint8_t). -/
def u8 : IntTy := ⟨8, false⟩

/-- The signed 16-bit target type (int16_t). -/
def i16 : IntTy := ⟨16, true⟩

/-- The unsigned 16-bit target type (uint16_t). -/
def u16 : IntTy := ⟨16, false⟩

/-- The signed 32-bit target type (int32_t / int). -/
def i32 : IntTy := ⟨32, true⟩

/-- The unsigned 32-bit target type (uint32_t). -/
def u32 : IntTy := ⟨32, false⟩

/-- The signed 64-bit target type (int64_t). -/
def i64 : IntTy := ⟨64, true⟩

/-- The unsigned 64-bit target type (uint64_t). -/
def u64 : IntTy := ⟨64, false⟩

/-! Basic facts about reading the source. -/

theorem charAt_eq_sentinel_of_le {s : List Char} {i : Nat} (h : s.length ≤ i) :
    charAt s i = sentinel := by
  unfold charAt
  rw [List.getD_eq_getElem?_getD, List.getElem?_eq_none h]
  rfl

theorem lt_length_of_charAt_ne {s : List Char} {i : Nat} (h : charAt s i ≠ sentinel) :
    i < s.length := by
  by_contra hn
  exact h (charAt_eq_sentinel_of_le (Nat.le_of_not_lt hn))

@[simp] theorem charAt_cons_succ (a : Char) (s : List Char) (i : Nat) :
    charAt (a :: s) (i + 1) = charAt s i := rfl

/-! Lemmas about the shared scanning loops. -/

theorem scanLoopF_mono {α : Type} (g : Char → Bool) (f : α → Char → α) (s : List Char) :
    ∀ (fuel : Nat) (st : α) (i : Nat), i ≤ (scanLoopF g f s fuel st i).2 := by
  intro fuel
  induction fuel with
  | zero => intro st i; exact Nat.le_refl i
  | succ n ih =>
    intro st i
    simp only [scanLoopF]
    split
    · exact Nat.le_of_succ_le (ih (f st (charAt s i)) (i + 1))
    · exact Nat.le_refl i

theorem scanLoopF_le {α : Type} (g : Char → Bool) (f : α → Char → α) (s : List Char) :
    ∀ (fuel : Nat) (st : α) (i : Nat), i ≤ s.length →
      (scanLoopF g f s fuel st i).2 ≤ s.length := by
  intro fuel
  induction fuel with
  | zero => intro st i h; exact h
  | succ n ih =>
    intro st i h
    simp only [scanLoopF]
    split
    · rename_i hc
      exact ih (f st (charAt s i)) (i + 1) (lt_length_of_charAt_ne hc.1)
    · exact h

theorem scanLoopF_pres {α : Type} {P : α → Prop} {g : Char → Bool} {f : α → Char → α}
    {s : List Char} (hf : ∀ a c, P a → P (f a c)) :
    ∀ (fuel : Nat) (st : α) (i : Nat), P st → P (scanLoopF g f s fuel st i).1 := by
  intro fuel
  induction fuel with
  | zero => intro st i h; exact h
  | succ n ih =>
    intro st i h
    simp only [scanLoopF]
    split
    · exact ih (f st (charAt s i)) (i + 1) (hf st (charAt s i) h)
    · exact h

theorem scanLoopF_cons {α : Type} (g : Char → Bool) (f : α → Char → α) (a : Char)
    (s : List Char) :
    ∀ (fuel : Nat) (st : α) (i : Nat),
      scanLoopF g f (a :: s) fuel st (i + 1) =
        ((scanLoopF g f s fuel st i).1, (scanLoopF g f s fuel st i).2 + 1) := by
  intro fuel
  induction fuel with
  | zero => intro st i; rfl
  | succ n ih =>
    intro st i
    simp only [scanLoopF, charAt_cons_succ]
    split
    · exact ih (f st (charAt s i)) (i + 1)
    · rfl

theorem scanLoop_mono {α : Type} (g : Char → Bool) (f : α → Char → α) (s : List Char)
    (st : α) (i : Nat) : i ≤ (scanLoop g f s st i).2 :=
  scanLoopF_mono g f s (s.length - i) st i

theorem scanLoop_le {α : Type} (g : Char → Bool) (f : α → Char → α) (s : List Char)
    (st : α) (i : Nat) (h : i ≤ s.length) : (scanLoop g f s st i).2 ≤ s.length :=
  scanLoopF_le g f s (s.length - i) st i h

theorem scanLoop_pres {α : Type} {P : α → Prop} {g : Char → Bool} {f : α → Char → α}
    {s : List Char} (hf : ∀ a c, P a → P (f a c)) (st : α) (i : Nat) (h : P st) :
    P (scanLoop g f s st i).1 :=
  scanLoopF_pres hf (s.length - i) st i h

theorem scanLoop_cons {α : Type} (g : Char → Bool) (f : α → Char → α) (a : Char)
    (s : List Char) (st : α) (i : Nat) :
    scanLoop g f (a :: s) st (i + 1) =
      ((scanLoop g f s st i).1, (scanLoop g f s st i).2 + 1) := by
  unfold scanLoop
  rw [List.length_cons, Nat.succ_sub_succ]
  exact scanLoopF_cons g f a s (s.length - i) st i

theorem scanLoop_stop {α : Type} {g : Char → Bool} {s : List Char} {i : Nat}
    (f : α → Char → α) (st : α)
    (h : charAt s i = sentinel ∨ g (charAt s i) = false) :
    scanLoop g f s st i = (st, i) := by
  unfold scanLoop
  cases hf : s.length - i with
  | zero => rfl
  | succ m =>
    simp only [scanLoopF]
    rw [if_neg]
    intro hc
    rcases h with h | h
    · exact hc.1 h
    · rw [h] at hc
      exact Bool.false_ne_true hc.2

theorem scanLoopNF_i_mono {α : Type} (g : Char → Bool) (f : α → Char → α) (s : List Char)
    (maxLength : Nat) :
    ∀ (fuel : Nat) (st : α) (i cnt : Nat), i ≤ (scanLoopNF g f s maxLength fuel st i cnt).2.1 := by
  intro fuel
  induction fuel with
  | zero => intro st i cnt; exact Nat.le_refl i
  | succ n ih =>
    intro st i cnt
    simp only [scanLoopNF]
    split
    · exact Nat.le_of_succ_le (ih (f st (charAt s i)) (i + 1) (cnt + 1))
    · exact Nat.le_refl i

theorem scanLoopNF_le {α : Type} (g : Char → Bool) (f : α → Char → α) (s : List Char)
    (maxLength : Nat) :
    ∀ (fuel : Nat) (st : α) (i cnt : Nat), i ≤ s.length →
      (scanLoopNF g f s maxLength fuel st i cnt).2.1 ≤ s.length := by
  intro fuel
  induction fuel with
  | zero => intro st i cnt h; exact h
  | succ n ih =>
    intro st i cnt h
    simp only [scanLoopNF]
    split
    · rename_i hc
      exact ih (f st (charAt s i)) (i + 1) (cnt + 1) (lt_length_of_charAt_ne hc.1)
    · exact h

theorem scanLoopNF_lockstep {α : Type} (g : Char → Bool) (f : α → Char → α) (s : List Char)
    (maxLength : Nat) :
    ∀ (fuel : Nat) (st : α) (i cnt : Nat),
      (scanLoopNF g f s maxLength fuel st i cnt).2.1 + cnt =
        (scanLoopNF g f s maxLength fuel st i cnt).2.2 + i := by
  intro fuel
  induction fuel with
  | zero => intro st i cnt; exact Nat.add_comm i cnt
  | succ n ih =>
    intro st i cnt
    simp only [scanLoopNF]
    split
    · have h := ih (f st (charAt s i)) (i + 1) (cnt + 1)
      omega
    · exact Nat.add_comm i cnt

theorem scanLoopNF_cnt_mono {α : Type} (g : Char → Bool) (f : α → Char → α) (s : List Char)
    (maxLength : Nat) :
    ∀ (fuel : Nat) (st : α) (i cnt : Nat),
      cnt ≤ (scanLoopNF g f s maxLength fuel st i cnt).2.2 := by
  intro fuel
  induction fuel with
  | zero => intro st i cnt; exact Nat.le_refl cnt
  | succ n ih =>
    intro st i cnt
    simp only [scanLoopNF]
    split
    · exact Nat.le_of_succ_le (ih (f st (charAt s i)) (i + 1) (cnt + 1))
    · exact Nat.le_refl cnt

theorem scanLoopNF_cap {α : Type} (g : Char → Bool) (f : α → Char → α) (s : List Char)
    (maxLength : Nat) :
    ∀ (fuel : Nat) (st : α) (i cnt : Nat),
      (scanLoopNF g f s maxLength fuel st i cnt).2.2 = cnt ∨
        (scanLoopNF g f s maxLength fuel st i cnt).2.2 ≤ maxLength := by
  intro fuel
  induction fuel with
  | zero => intro st i cnt; exact Or.inl rfl
  | succ n ih =>
    intro st i cnt
    simp only [scanLoopNF]
    split
    · rename_i hc
      rcases ih (f st (charAt s i)) (i + 1) (cnt + 1) with h | h
      · exact Or.inr (by omega)
      · exact Or.inr h
    · exact Or.inl rfl

theorem scanLoopNF_eq_scanLoopF {α : Type} (g : Char → Bool) (f : α → Char → α)
    (s : List Char) (maxLength : Nat) (hlen : s.length ≤ maxLength) :
    ∀ (fuel : Nat) (st : α) (i cnt : Nat), cnt ≤ i →
      (scanLoopNF g f s maxLength fuel st i cnt).1 = (scanLoopF g f s fuel st i).1 ∧
        (scanLoopNF g f s maxLength fuel st i cnt).2.1 = (scanLoopF g f s fuel st i).2 := by
  intro fuel
  induction fuel with
  | zero => intro st i cnt _; exact ⟨rfl, rfl⟩
  | succ n ih =>
    intro st i cnt hci
    by_cases h : charAt s i ≠ sentinel ∧ g (charAt s i) = true
    · have hcnt : cnt < maxLength :=
        Nat.lt_of_le_of_lt hci (Nat.lt_of_lt_of_le (lt_length_of_charAt_ne h.1) hlen)
      simp only [scanLoopNF, scanLoopF]
      rw [if_pos ⟨h.1, h.2, hcnt⟩, if_pos h]
      exact ih (f st (charAt s i)) (i + 1) (cnt + 1) (Nat.succ_le_succ hci)
    · simp only [scanLoopNF, scanLoopF]
      rw [if_neg h, if_neg]
      · exact ⟨rfl, rfl⟩
      · intro hc
        exact h ⟨hc.1, hc.2.1⟩

theorem scanLoopN_i_mono {α : Type} (g : Char → Bool) (f : α → Char → α) (s : List Char)
    (maxLength : Nat) (st : α) (i cnt : Nat) :
    i ≤ (scanLoopN g f s maxLength st i cnt).2.1 :=
  scanLoopNF_i_mono g f s maxLength (s.length - i) st i cnt

theorem scanLoopN_le {α : Type} (g : Char → Bool) (f : α → Char → α) (s : List Char)
    (maxLength : Nat) (st : α) (i cnt : Nat) (h : i ≤ s.length) :
    (scanLoopN g f s maxLength st i cnt).2.1 ≤ s.length :=
  scanLoopNF_le g f s maxLength (s.length - i) st i cnt h

theorem scanLoopN_lockstep {α : Type} (g : Char → Bool) (f : α → Char → α) (s : List Char)
    (maxLength : Nat) (st : α) (i cnt : Nat) :
    (scanLoopN g f s maxLength st i cnt).2.1 + cnt =
      (scanLoopN g f s maxLength st i cnt).2.2 + i :=
  scanLoopNF_lockstep g f s maxLength (s.length - i) st i cnt

theorem scanLoopN_cnt_mono {α : Type} (g : Char → Bool) (f : α → Char → α) (s : List Char)
    (maxLength : Nat) (st : α) (i cnt : Nat) :
    cnt ≤ (scanLoopN g f s maxLength st i cnt).2.2 :=
  scanLoopNF_cnt_mono g f s maxLength (s.length - i) st i cnt

theorem scanLoopN_cap {α : Type} (g : Char → Bool) (f : α → Char → α) (s : List Char)
    (maxLength : Nat) (st : α) (i cnt : Nat) :
    (scanLoopN g f s maxLength st i cnt).2.2 = cnt ∨
      (scanLoopN g f s maxLength st i cnt).2.2 ≤ maxLength :=
  scanLoopNF_cap g f s maxLength (s.length - i) st i cnt

theorem scanLoopN_eq_scanLoop {α : Type} (g : Char → Bool) (f : α → Char → α)
    (s : List Char) (maxLength : Nat) (hlen : s.length ≤ maxLength) (st : α) (i cnt : Nat)
    (hci : cnt ≤ i) :
    (scanLoopN g f s maxLength st i cnt).1 = (scanLoop g f s st i).1 ∧
      (scanLoopN g f s maxLength st i cnt).2.1 = (scanLoop g f s st i).2 :=
  scanLoopNF_eq_scanLoopF g f s maxLength hlen (s.length - i) st i cnt hci

theorem scanLoopN_stop {α : Type} {g : Char → Bool} {s : List Char} {i : Nat}
    (f : α → Char → α) (maxLength : Nat) (st : α) (cnt : Nat)
    (h : charAt s i = sentinel ∨ g (charAt s i) = false) :
    scanLoopN g f s maxLength st i cnt = (st, i, cnt) := by
  unfold scanLoopN
  cases hf : s.length - i with
  | zero => rfl
  | succ m =>
    simp only [scanLoopNF]
    rw [if_neg]
    intro hc
    rcases h with h | h
    · exact hc.1 h
    · rw [h] at hc
      exact Bool.false_ne_true hc.2.1

/-! Digit values, the shift-and-or accumulation steps, and the
two's-complement readback. -/

theorem evaluate_hexadecimal_ch_nat_lt (c : Char) : evaluate_hexadecimal_ch_nat c < 16 := by
  unfold evaluate_hexadecimal_ch_nat
  split
  · rename_i h
    simp only [is_decimal_ch, Bool.and_eq_true, decide_eq_true_eq] at h
    unfold evaluate_decimal_ch_nat
    omega
  split
  · rename_i h
    simp only [is_lower_hex_ch, Bool.and_eq_true, decide_eq_true_eq] at h
    unfold evaluate_lower_hex_ch_nat
    omega
  split
  · rename_i h
    simp only [is_upper_hex_ch, Bool.and_eq_true, decide_eq_true_eq] at h
    unfold evaluate_upper_hex_ch_nat
    omega
  · omega

theorem evaluate_binary_ch_nat_lt (c : Char) : evaluate_binary_ch_nat c < 2 := by
  unfold evaluate_binary_ch_nat
  split
  · rename_i h
    simp only [is_binary_ch, Bool.or_eq_true, decide_eq_true_eq] at h
    rcases h with h | h <;> subst h <;> decide
  · omega

theorem lor_eq_add_of_dvd {n a d : Nat} (ha : 2 ^ n ∣ a) (hd : d < 2 ^ n) :
    Nat.lor a d = a + d := by
  obtain ⟨q, hq⟩ := ha
  subst hq
  exact (Nat.mul_add_lt_is_or hd q).symm

theorem modulus_pos (t : IntTy) : 0 < t.modulus := Nat.two_pow_pos t.width

theorem decStepI_lt (t : IntTy) (u : Nat) (c : Char) : decStepI t u c < t.modulus :=
  Nat.mod_lt _ (modulus_pos t)

theorem hexStepI_eq (t : IntTy) (h4 : 4 ≤ t.width) (u : Nat) (c : Char) :
    hexStepI t u c = (u * 16 + evaluate_hexadecimal_ch_nat c) % t.modulus := by
  have hdvd : 2 ^ 4 ∣ t.modulus := by
    refine ⟨2 ^ (t.width - 4), ?_⟩
    rw [IntTy.modulus, ← pow_add]
    congr 1
    omega
  have hdvd2 : 2 ^ 4 ∣ u * 16 % t.modulus :=
    (Nat.dvd_mod_iff hdvd).mpr ⟨u, by ring⟩
  have hd : evaluate_hexadecimal_ch_nat c < 2 ^ 4 := evaluate_hexadecimal_ch_nat_lt c
  have hlt : u * 16 % t.modulus < t.modulus := Nat.mod_lt _ (modulus_pos t)
  have hsum : u * 16 % t.modulus + evaluate_hexadecimal_ch_nat c < t.modulus := by
    obtain ⟨x, hx⟩ := hdvd2
    obtain ⟨y, hy⟩ := hdvd
    omega
  have hdM : evaluate_hexadecimal_ch_nat c < t.modulus := by omega
  rw [hexStepI, lor_eq_add_of_dvd hdvd2 hd, Nat.add_mod, Nat.mod_eq_of_lt hdM,
    Nat.mod_eq_of_lt hsum]

theorem binStepI_eq (t : IntTy) (h1 : 1 ≤ t.width) (u : Nat) (c : Char) :
    binStepI t u c = (u * 2 + evaluate_binary_ch_nat c) % t.modulus := by
  have hdvd : 2 ^ 1 ∣ t.modulus := by
    refine ⟨2 ^ (t.width - 1), ?_⟩
    rw [IntTy.modulus, ← pow_add]
    congr 1
    omega
  have hdvd2 : 2 ^ 1 ∣ u * 2 % t.modulus :=
    (Nat.dvd_mod_iff hdvd).mpr ⟨u, by ring⟩
  have hd : evaluate_binary_ch_nat c < 2 ^ 1 := evaluate_binary_ch_nat_lt c
  have hlt : u * 2 % t.modulus < t.modulus := Nat.mod_lt _ (modulus_pos t)
  have hsum : u * 2 % t.modulus + evaluate_binary_ch_nat c < t.modulus := by
    obtain ⟨x, hx⟩ := hdvd2
    obtain ⟨y, hy⟩ := hdvd
    omega
  have hdM : evaluate_binary_ch_nat c < t.modulus := by omega
  rw [binStepI, lor_eq_add_of_dvd hdvd2 hd, Nat.add_mod, Nat.mod_eq_of_lt hdM,
    Nat.mod_eq_of_lt hsum]

theorem hexStepI_lt (t : IntTy) (h4 : 4 ≤ t.width) (u : Nat) (c : Char) :
    hexStepI t u c < t.modulus := by
  rw [hexStepI_eq t h4]
  exact Nat.mod_lt _ (modulus_pos t)

theorem binStepI_lt (t : IntTy) (h1 : 1 ≤ t.width) (u : Nat) (c : Char) :
    binStepI t u c < t.modulus := by
  rw [binStepI_eq t h1]
  exact Nat.mod_lt _ (modulus_pos t)

theorem mulSignPat_lt (t : IntTy) (g : Sign) (u : Nat) (hu : u < t.modulus) :
    mulSignPat t g u < t.modulus := by
  cases g with
  | negative => exact Nat.mod_lt _ (modulus_pos t)
  | positive => exact hu
  | none => exact hu

/-- Negating a representable pattern other than the most negative one reads
back as integer negation. -/
theorem toInt_mulSignPat_neg (t : IntTy) (hw : 1 ≤ t.width) (hs : t.signed = true)
    (u : Nat) (hu : u < t.modulus) (hne : u ≠ 2 ^ (t.width - 1)) :
    t.toInt (mulSignPat t Sign.negative u) = - t.toInt u := by
  have hM : t.modulus = 2 ^ (t.width - 1) * 2 := by
    rw [IntTy.modulus, ← pow_succ]
    congr 1
    omega
  have hN : 0 < 2 ^ (t.width - 1) := Nat.two_pow_pos _
  have humod : u % t.modulus = u := Nat.mod_eq_of_lt hu
  unfold mulSignPat IntTy.toInt
  rw [humod]
  rcases Nat.eq_zero_or_pos u with h0 | hpos
  · subst h0
    rw [Nat.sub_zero, Nat.mod_self]
    simp [hs, hN.ne']
  · have hlt : t.modulus - u < t.modulus := by omega
    rw [Nat.mod_eq_of_lt hlt]
    by_cases hbig : 2 ^ (t.width - 1) ≤ u
    · have h1 : ¬ (t.signed = true ∧ 2 ^ (t.width - 1) ≤ t.modulus - u) := by
        intro hc
        omega
      rw [if_neg h1, if_pos ⟨hs, hbig⟩]
      push_cast
      omega
    · have h1 : t.signed = true ∧ 2 ^ (t.width - 1) ≤ t.modulus - u := ⟨hs, by omega⟩
      rw [if_pos h1, if_neg (by intro hc; omega)]
      push_cast
      omega

/-- A skip loop (C++17 floating-point hex/binary branch) never changes the
accumulated value. -/
theorem scanLoop_skip_val (g : Char → Bool) (s : List Char) (v : ℚ) (i : Nat) :
    (scanLoop g skipStepQ s v i).1 = v :=
  scanLoop_pres (P := fun x => x = v) (fun _ _ h => h) v i rfl

/-! Sign and prefix detection facts. -/

theorem get_sign_eq_negative {s : List Char} {i : Nat} :
    get_sign s i = Sign.negative ↔ charAt s i = '-' := by
  unfold get_sign
  split_ifs with h1 h2 <;> simp_all

theorem get_sign_eq_none {s : List Char} {i : Nat} :
    get_sign s i = Sign.none ↔ (charAt s i ≠ '-' ∧ charAt s i ≠ '+') := by
  unfold get_sign
  split_ifs with h1 h2 <;> simp_all

theorem get_sign_eq_positive {s : List Char} {i : Nat} :
    get_sign s i = Sign.positive ↔ (charAt s i ≠ '-' ∧ charAt s i = '+') := by
  unfold get_sign
  split_ifs with h1 h2 <;> simp_all

theorem sign_stage_le (s : List Char) (cs : Bool) : (sign_stage s cs).2 ≤ s.length := by
  unfold sign_stage
  cases cs with
  | false => simp
  | true =>
    simp only [if_pos]
    cases hg : get_sign s 0 with
    | none => simp
    | negative =>
      simp only
      have hc : charAt s 0 = '-' := get_sign_eq_negative.mp hg
      have : charAt s 0 ≠ sentinel := by rw [hc]; decide
      exact lt_length_of_charAt_ne this
    | positive =>
      simp only
      have hc : charAt s 0 = '+' := (get_sign_eq_positive.mp hg).2
      have : charAt s 0 ≠ sentinel := by rw [hc]; decide
      exact lt_length_of_charAt_ne this

theorem sign_stage_none (s : List Char) (cs : Bool) (h1 : charAt s 0 ≠ '-')
    (h2 : charAt s 0 ≠ '+') : sign_stage s cs = (Sign.positive, 0) := by
  unfold sign_stage
  cases cs with
  | false => rfl
  | true => rw [if_pos rfl, get_sign_eq_none.mpr ⟨h1, h2⟩]

theorem sign_stage_false (s : List Char) : sign_stage s false = (Sign.positive, 0) := rfl

theorem sign_stage_neg_cons (a : List Char) : sign_stage ('-' :: a) true = (Sign.negative, 1) := by
  unfold sign_stage
  rw [if_pos rfl, get_sign_eq_negative.mpr (show charAt ('-' :: a) 0 = '-' from rfl)]

theorem has_binary_prefix_at_le {s : List Char} {i : Nat}
    (h : has_binary_prefix_at s i = true) : i + 2 ≤ s.length := by
  simp only [has_binary_prefix_at, Bool.and_eq_true, Bool.or_eq_true, decide_eq_true_eq] at h
  have : charAt s (i + 1) ≠ sentinel := by
    rcases h.2 with h2 | h2 <;> rw [h2] <;> decide
  exact lt_length_of_charAt_ne this

theorem has_hexadecimal_prefix_at_le {s : List Char} {i : Nat}
    (h : has_hexadecimal_prefix_at s i = true) : i + 2 ≤ s.length := by
  simp only [has_hexadecimal_prefix_at, Bool.and_eq_true, Bool.or_eq_true,
    decide_eq_true_eq] at h
  have : charAt s (i + 1) ≠ sentinel := by
    rcases h.2 with h2 | h2 <;> rw [h2] <;> decide
  exact lt_length_of_charAt_ne this

/-- Reading back the zero pattern gives the integer 0 for every target type. -/
theorem IntTy.toInt_zero (t : IntTy) : t.toInt 0 = 0 := by
  unfold IntTy.toInt
  rw [if_neg]
  · rfl
  · intro hc
    exact absurd hc.2 (by simp [Nat.pos_iff_ne_zero.mp (Nat.two_pow_pos (t.width - 1))])

theorem evaluate_exponent_literal_rat_stop {s : List Char} {i : Nat} (v : ℚ)
    (h1 : charAt s i ≠ 'e') (h2 : charAt s i ≠ 'E') :
    evaluate_exponent_literal_rat s v i = (v, i) := by
  unfold evaluate_exponent_literal_rat
  rw [if_neg]
  rintro (h | h)
  · exact h1 h
  · exact h2 h

theorem evaluate_exponent_literal_n_rat_stop {s : List Char} {i : Nat} (v : ℚ)
    (maxLength : Nat) (charge : Bool) (h1 : charAt s i ≠ 'e') (h2 : charAt s i ≠ 'E') :
    evaluate_exponent_literal_n_rat s v i maxLength charge = (v, i, 0) := by
  unfold evaluate_exponent_literal_n_rat
  rw [if_neg]
  rintro (h | h)
  · exact h1 h
  · exact h2 h

/-! Cursor bounds for the stages and the top-level scans. -/

theorem base_literal_int_le (t : IntTy) (s : List Char) (hx bn : Bool) (i : Nat)
    (h : i ≤ s.length) : (base_literal_int t s hx bn i).2 ≤ s.length := by
  unfold base_literal_int
  split
  · rename_i hb
    exact scanLoop_le _ _ _ _ _ (has_binary_prefix_at_le (Bool.and_elim_right hb))
  split
  · rename_i hb hh
    exact scanLoop_le _ _ _ _ _ (has_hexadecimal_prefix_at_le (Bool.and_elim_right hh))
  · exact scanLoop_le _ _ _ _ _ h

theorem evaluate_int_full_le (t : IntTy) (s : List Char) (f1 f2 f3 f4 f5 : Bool) :
    (evaluate_int_full t s f1 f2 f3 f4 f5).2 ≤ s.length :=
  base_literal_int_le t s f3 f4 _ (sign_stage_le s f1)

theorem evaluate_exponent_literal_rat_mono (s : List Char) (v : ℚ) (i : Nat) :
    i ≤ (evaluate_exponent_literal_rat s v i).2 := by
  unfold evaluate_exponent_literal_rat
  split
  · have h1 : i + 1 ≤ (if charAt s (i + 1) = '-' then ((-1 : ℤ), i + 1 + 1)
        else if charAt s (i + 1) = '+' then ((1 : ℤ), i + 1 + 1) else ((1 : ℤ), i + 1)).2 := by
      split_ifs <;> omega
    exact le_trans (le_trans (Nat.le_succ i) h1) (scanLoop_mono _ _ _ _ _)
  · exact Nat.le_refl i

theorem evaluate_exponent_literal_rat_le (s : List Char) (v : ℚ) (i : Nat)
    (h : i ≤ s.length) : (evaluate_exponent_literal_rat s v i).2 ≤ s.length := by
  unfold evaluate_exponent_literal_rat
  split
  · rename_i he
    have hi : i < s.length := by
      apply lt_length_of_charAt_ne
      rcases he with he | he <;> rw [he] <;> decide
    apply scanLoop_le
    split_ifs with hm hp
    · exact lt_length_of_charAt_ne (by rw [hm]; decide)
    · exact lt_length_of_charAt_ne (by rw [hp]; decide)
    · exact hi
  · exact h

theorem base_literal_rat_le (s : List Char) (hx bn : Bool) (i : Nat)
    (h : i ≤ s.length) : (base_literal_rat s hx bn i).2 ≤ s.length := by
  unfold base_literal_rat
  split
  · rename_i hb
    exact scanLoop_le _ _ _ _ _ (has_binary_prefix_at_le (Bool.and_elim_right hb))
  split
  · rename_i hb hh
    exact scanLoop_le _ _ _ _ _ (has_hexadecimal_prefix_at_le (Bool.and_elim_right hh))
  · exact scanLoop_le _ _ _ _ _ h

theorem evaluate_floatpoint_literal_rat_le (s : List Char) (v : ℚ) (i : Nat) (place : ℚ)
    (h : i ≤ s.length) : (evaluate_floatpoint_literal_rat s v i place).2 ≤ s.length := by
  unfold evaluate_floatpoint_literal_rat
  exact scanLoop_le _ _ _ _ _ h

theorem evaluate_floatpoint_literal_rat_mono (s : List Char) (v : ℚ) (i : Nat) (place : ℚ) :
    i ≤ (evaluate_floatpoint_literal_rat s v i place).2 := by
  unfold evaluate_floatpoint_literal_rat
  exact scanLoop_mono _ _ _ _ _

theorem evaluate_rat_full_le (s : List Char) (f1 f2 f3 f4 f5 : Bool) :
    (evaluate_rat_full s f1 f2 f3 f4 f5).2 ≤ s.length := by
  unfold evaluate_rat_full
  dsimp only
  have hq := base_literal_rat_le s f3 f4 (sign_stage s f1).2 (sign_stage_le s f1)
  have hr : (if f2 = true ∧ charAt s (base_literal_rat s f3 f4 (sign_stage s f1).2).2 = '.'
      then evaluate_floatpoint_literal_rat s (base_literal_rat s f3 f4 (sign_stage s f1).2).1
        ((base_literal_rat s f3 f4 (sign_stage s f1).2).2 + 1) (1 / 10)
      else base_literal_rat s f3 f4 (sign_stage s f1).2).2 ≤ s.length := by
    split
    · rename_i hdot
      have hlt : (base_literal_rat s f3 f4 (sign_stage s f1).2).2 < s.length :=
        lt_length_of_charAt_ne (by rw [hdot.2]; decide)
      exact evaluate_floatpoint_literal_rat_le s _ _ _ hlt
    · exact hq
  split
  · exact evaluate_exponent_literal_rat_le s _ _ hr
  · exact hr

theorem base_literal_n_int_le (t : IntTy) (s : List Char) (hx bn : Bool) (i : Nat)
    (maxLength : Nat) (charge : Bool) (h : i ≤ s.length) :
    (base_literal_n_int t s hx bn i maxLength charge).2.1 ≤ s.length := by
  unfold base_literal_n_int
  unfold evaluate_binary_literal_n_int evaluate_hexadecimal_literal_n_int
    evaluate_decimal_literal_n_int
  split
  · rename_i hb
    exact scanLoopN_le _ _ _ _ _ _ _ (has_binary_prefix_at_le (Bool.and_elim_right hb))
  split
  · rename_i hb hh
    exact scanLoopN_le _ _ _ _ _ _ _ (has_hexadecimal_prefix_at_le (Bool.and_elim_right hh))
  · exact scanLoopN_le _ _ _ _ _ _ _ h

theorem evaluate_n_int_full_le (t : IntTy) (s : List Char) (maxLength : Nat)
    (f0 f1 f2 f3 f4 f5 : Bool) :
    (evaluate_n_int_full t s maxLength f0 f1 f2 f3 f4 f5).2.1 ≤ s.length :=
  base_literal_n_int_le t s f3 f4 _ maxLength f0 (sign_stage_le s f1)

theorem evaluate_exponent_literal_n_rat_mono (s : List Char) (v : ℚ) (i maxLength : Nat)
    (charge : Bool) : i ≤ (evaluate_exponent_literal_n_rat s v i maxLength charge).2.1 := by
  unfold evaluate_exponent_literal_n_rat
  split
  · dsimp only
    split_ifs with hm hp
    · exact le_trans (by omega)
        (scanLoopN_i_mono is_decimal_ch expStep s maxLength 0 (i + 1 + 1)
          (_get_cnti i charge + 1 + 1))
    · exact le_trans (by omega)
        (scanLoopN_i_mono is_decimal_ch expStep s maxLength 0 (i + 1 + 1)
          (_get_cnti i charge + 1 + 1))
    · exact le_trans (by omega)
        (scanLoopN_i_mono is_decimal_ch expStep s maxLength 0 (i + 1)
          (_get_cnti i charge + 1))
  · exact Nat.le_refl i

theorem evaluate_exponent_literal_n_rat_le (s : List Char) (v : ℚ) (i maxLength : Nat)
    (charge : Bool) (h : i ≤ s.length) :
    (evaluate_exponent_literal_n_rat s v i maxLength charge).2.1 ≤ s.length := by
  unfold evaluate_exponent_literal_n_rat
  split
  · rename_i he
    have hi : i < s.length := by
      apply lt_length_of_charAt_ne
      rcases he with he | he <;> rw [he] <;> decide
    apply scanLoopN_le
    split_ifs with hm hp
    · exact lt_length_of_charAt_ne (by rw [hm]; decide)
    · exact lt_length_of_charAt_ne (by rw [hp]; decide)
    · exact hi
  · exact h

theorem base_literal_n_rat_le (s : List Char) (hx bn : Bool) (i : Nat)
    (maxLength : Nat) (charge : Bool) (h : i ≤ s.length) :
    (base_literal_n_rat s hx bn i maxLength charge).2.1 ≤ s.length := by
  unfold base_literal_n_rat
  unfold evaluate_binary_literal_n_rat evaluate_hexadecimal_literal_n_rat
    evaluate_decimal_literal_n_rat
  split
  · rename_i hb
    exact scanLoopN_le _ _ _ _ _ _ _ (has_binary_prefix_at_le (Bool.and_elim_right hb))
  split
  · rename_i hb hh
    exact scanLoopN_le _ _ _ _ _ _ _ (has_hexadecimal_prefix_at_le (Bool.and_elim_right hh))
  · exact scanLoopN_le _ _ _ _ _ _ _ h

theorem evaluate_floatpoint_literal_n_rat_le (s : List Char) (v : ℚ) (i : Nat) (place : ℚ)
    (maxLength : Nat) (charge : Bool) (h : i ≤ s.length) :
    (evaluate_floatpoint_literal_n_rat s v i place maxLength charge).2.1 ≤ s.length := by
  unfold evaluate_floatpoint_literal_n_rat
  exact scanLoopN_le _ _ _ _ _ _ _ h

theorem evaluate_floatpoint_literal_n_rat_mono (s : List Char) (v : ℚ) (i : Nat) (place : ℚ)
    (maxLength : Nat) (charge : Bool) :
    i ≤ (evaluate_floatpoint_literal_n_rat s v i place maxLength charge).2.1 := by
  unfold evaluate_floatpoint_literal_n_rat
  exact scanLoopN_i_mono _ _ _ _ _ _ _

theorem evaluate_n_rat_full_le (s : List Char) (maxLength : Nat) (f0 f1 f2 f3 f4 f5 : Bool) :
    (evaluate_n_rat_full s maxLength f0 f1 f2 f3 f4 f5).2.1 ≤ s.length := by
  unfold evaluate_n_rat_full
  dsimp only
  have hq := base_literal_n_rat_le s f3 f4 (sign_stage s f1).2 maxLength f0 (sign_stage_le s f1)
  split
  · split
    · rename_i hexp hdot
      dsimp only
      apply evaluate_exponent_literal_n_rat_le
      apply evaluate_floatpoint_literal_n_rat_le
      exact lt_length_of_charAt_ne (by rw [hdot.2.1]; decide)
    · exact evaluate_exponent_literal_n_rat_le s _ _ maxLength f0 hq
  · split
    · rename_i hexp hdot
      dsimp only
      apply evaluate_floatpoint_literal_n_rat_le
      exact lt_length_of_charAt_ne (by rw [hdot.2.1]; decide)
    · exact hq

/-! When the first character satisfies no guard, every stage is a no-op. -/

theorem base_literal_int_stuck (t : IntTy) (s : List Char) (f3 f4 : Bool)
    (hnz : charAt s 0 ≠ '0') (hhex : is_hexadecimal_ch (charAt s 0) = false) :
    base_literal_int t s f3 f4 0 = (0, 0) := by
  have hb : has_binary_prefix_at s 0 = false := by
    simp [has_binary_prefix_at, hnz]
  have hh : has_hexadecimal_prefix_at s 0 = false := by
    simp [has_hexadecimal_prefix_at, hnz]
  unfold base_literal_int
  rw [hb, hh]
  rw [if_neg (by simp), if_neg (by simp)]
  unfold evaluate_decimal_literal_int
  exact scanLoop_stop (decStepI t) 0 (Or.inr hhex)

theorem base_literal_rat_stuck (s : List Char) (f3 f4 : Bool)
    (hnz : charAt s 0 ≠ '0') (hhex : is_hexadecimal_ch (charAt s 0) = false) :
    base_literal_rat s f3 f4 0 = (0, 0) := by
  have hb : has_binary_prefix_at s 0 = false := by
    simp [has_binary_prefix_at, hnz]
  have hh : has_hexadecimal_prefix_at s 0 = false := by
    simp [has_hexadecimal_prefix_at, hnz]
  unfold base_literal_rat
  rw [hb, hh]
  rw [if_neg (by simp), if_neg (by simp)]
  unfold evaluate_decimal_literal_rat
  exact scanLoop_stop decStepQ 0 (Or.inr hhex)

theorem base_literal_n_int_stuck (t : IntTy) (s : List Char) (f3 f4 : Bool)
    (maxLength : Nat) (f0 : Bool)
    (hnz : charAt s 0 ≠ '0') (hhex : is_hexadecimal_ch (charAt s 0) = false) :
    base_literal_n_int t s f3 f4 0 maxLength f0 = (0, 0, 0) := by
  have hb : has_binary_prefix_at s 0 = false := by
    simp [has_binary_prefix_at, hnz]
  have hh : has_hexadecimal_prefix_at s 0 = false := by
    simp [has_hexadecimal_prefix_at, hnz]
  unfold base_literal_n_int
  rw [hb, hh]
  rw [if_neg (by simp), if_neg (by simp)]
  unfold evaluate_decimal_literal_n_int
  dsimp only
  rw [scanLoopN_stop (decStepI t) maxLength 0 (_get_cnti 0 f0) (Or.inr hhex)]
  simp [_get_cnti]

theorem base_literal_n_rat_stuck (s : List Char) (f3 f4 : Bool)
    (maxLength : Nat) (f0 : Bool)
    (hnz : charAt s 0 ≠ '0') (hhex : is_hexadecimal_ch (charAt s 0) = false) :
    base_literal_n_rat s f3 f4 0 maxLength f0 = (0, 0, 0) := by
  have hb : has_binary_prefix_at s 0 = false := by
    simp [has_binary_prefix_at, hnz]
  have hh : has_hexadecimal_prefix_at s 0 = false := by
    simp [has_hexadecimal_prefix_at, hnz]
  unfold base_literal_n_rat
  rw [hb, hh]
  rw [if_neg (by simp), if_neg (by simp)]
  unfold evaluate_decimal_literal_n_rat
  dsimp only
  rw [scanLoopN_stop decStepQ maxLength 0 (_get_cnti 0 f0) (Or.inr hhex)]
  simp [_get_cnti]

theorem _get_cnti_true (i : Nat) : _get_cnti i true = i := rfl

theorem _get_cnti_false (i : Nat) : _get_cnti i false = 0 := rfl

/-- What a digit stage guarantees when the cap is charged from the cursor
(`consideSignAndPrefixInMaxLength = true`): the stage starting at cursor `i`
ends at cursor `o` having consumed `d` digit characters with `d + i ≤ o`, the
cursor does not retreat, and either no digit was consumed or the final cursor
(which equals the final counter) is within the cap. -/
def StageOk (i maxLength o d : Nat) : Prop :=
  d + i ≤ o ∧ i ≤ o ∧ (d = 0 ∨ o ≤ maxLength)

theorem StageOk.weaken {i j maxLength o d : Nat} (h : StageOk j maxLength o d)
    (hij : i ≤ j) : StageOk i maxLength o d := by
  unfold StageOk at h ⊢
  omega

theorem scanLoopN_charged_ok {α : Type} (g : Char → Bool) (f : α → Char → α)
    (s : List Char) (maxLength : Nat) (st : α) (i : Nat) :
    StageOk i maxLength (scanLoopN g f s maxLength st i i).2.1
      ((scanLoopN g f s maxLength st i i).2.2 - i) := by
  have hl := scanLoopN_lockstep g f s maxLength st i i
  have hm := scanLoopN_cnt_mono g f s maxLength st i i
  have hc := scanLoopN_cap g f s maxLength st i i
  have hi := scanLoopN_i_mono g f s maxLength st i i
  unfold StageOk
  rcases hc with hc | hc
  · refine ⟨by omega, hi, Or.inl (by omega)⟩
  · refine ⟨by omega, hi, Or.inr (by omega)⟩

theorem evaluate_decimal_literal_n_int_ok (t : IntTy) (s : List Char) (u i maxLength : Nat) :
    StageOk i maxLength (evaluate_decimal_literal_n_int t s u i maxLength true).2.1
      (evaluate_decimal_literal_n_int t s u i maxLength true).2.2 := by
  unfold evaluate_decimal_literal_n_int
  rw [_get_cnti_true]
  exact scanLoopN_charged_ok _ _ s maxLength u i

theorem evaluate_hexadecimal_literal_n_int_ok (t : IntTy) (s : List Char)
    (u i maxLength : Nat) :
    StageOk i maxLength (evaluate_hexadecimal_literal_n_int t s u i maxLength true).2.1
      (evaluate_hexadecimal_literal_n_int t s u i maxLength true).2.2 := by
  unfold evaluate_hexadecimal_literal_n_int
  rw [_get_cnti_true]
  exact scanLoopN_charged_ok _ _ s maxLength u i

theorem evaluate_binary_literal_n_int_ok (t : IntTy) (s : List Char) (u i maxLength : Nat) :
    StageOk i maxLength (evaluate_binary_literal_n_int t s u i maxLength true).2.1
      (evaluate_binary_literal_n_int t s u i maxLength true).2.2 := by
  unfold evaluate_binary_literal_n_int
  rw [_get_cnti_true]
  exact scanLoopN_charged_ok _ _ s maxLength u i

theorem evaluate_decimal_literal_n_rat_ok (s : List Char) (v : ℚ) (i maxLength : Nat) :
    StageOk i maxLength (evaluate_decimal_literal_n_rat s v i maxLength true).2.1
      (evaluate_decimal_literal_n_rat s v i maxLength true).2.2 := by
  unfold evaluate_decimal_literal_n_rat
  rw [_get_cnti_true]
  exact scanLoopN_charged_ok _ _ s maxLength v i

theorem evaluate_hexadecimal_literal_n_rat_ok (s : List Char) (v : ℚ) (i maxLength : Nat) :
    StageOk i maxLength (evaluate_hexadecimal_literal_n_rat s v i maxLength true).2.1
      (evaluate_hexadecimal_literal_n_rat s v i maxLength true).2.2 := by
  unfold evaluate_hexadecimal_literal_n_rat
  rw [_get_cnti_true]
  exact scanLoopN_charged_ok _ _ s maxLength v i

theorem evaluate_binary_literal_n_rat_ok (s : List Char) (v : ℚ) (i maxLength : Nat) :
    StageOk i maxLength (evaluate_binary_literal_n_rat s v i maxLength true).2.1
      (evaluate_binary_literal_n_rat s v i maxLength true).2.2 := by
  unfold evaluate_binary_literal_n_rat
  rw [_get_cnti_true]
  exact scanLoopN_charged_ok _ _ s maxLength v i

theorem evaluate_floatpoint_literal_n_rat_ok (s : List Char) (v : ℚ) (i : Nat) (place : ℚ)
    (maxLength : Nat) :
    StageOk i maxLength (evaluate_floatpoint_literal_n_rat s v i place maxLength true).2.1
      (evaluate_floatpoint_literal_n_rat s v i place maxLength true).2.2 := by
  unfold evaluate_floatpoint_literal_n_rat
  rw [_get_cnti_true]
  exact scanLoopN_charged_ok _ _ s maxLength (v, place) i

theorem evaluate_exponent_literal_n_rat_ok (s : List Char) (v : ℚ) (i maxLength : Nat) :
    StageOk i maxLength (evaluate_exponent_literal_n_rat s v i maxLength true).2.1
      (evaluate_exponent_literal_n_rat s v i maxLength true).2.2 := by
  unfold evaluate_exponent_literal_n_rat
  rw [_get_cnti_true]
  split
  · dsimp only
    split_ifs with hm hp
    · exact (scanLoopN_charged_ok is_decimal_ch expStep s maxLength 0 (i + 1 + 1)).weaken
        (by omega)
    · exact (scanLoopN_charged_ok is_decimal_ch expStep s maxLength 0 (i + 1 + 1)).weaken
        (by omega)
    · exact (scanLoopN_charged_ok is_decimal_ch expStep s maxLength 0 (i + 1)).weaken
        (by omega)
  · dsimp only
    exact ⟨by omega, Nat.le_refl i, Or.inl rfl⟩

theorem base_literal_n_int_ok (t : IntTy) (s : List Char) (f3 f4 : Bool)
    (i maxLength : Nat) :
    StageOk i maxLength (base_literal_n_int t s f3 f4 i maxLength true).2.1
      (base_literal_n_int t s f3 f4 i maxLength true).2.2 := by
  unfold base_literal_n_int
  split
  · exact (evaluate_binary_literal_n_int_ok t s 0 (i + 2) maxLength).weaken (by omega)
  split
  · exact (evaluate_hexadecimal_literal_n_int_ok t s 0 (i + 2) maxLength).weaken (by omega)
  · exact evaluate_decimal_literal_n_int_ok t s 0 i maxLength

theorem base_literal_n_rat_ok (s : List Char) (f3 f4 : Bool) (i maxLength : Nat) :
    StageOk i maxLength (base_literal_n_rat s f3 f4 i maxLength true).2.1
      (base_literal_n_rat s f3 f4 i maxLength true).2.2 := by
  unfold base_literal_n_rat
  split
  · exact (evaluate_binary_literal_n_rat_ok s 0 (i + 2) maxLength).weaken (by omega)
  split
  · exact (evaluate_hexadecimal_literal_n_rat_ok s 0 (i + 2) maxLength).weaken (by omega)
  · exact evaluate_decimal_literal_n_rat_ok s 0 i maxLength

theorem evaluate_n_int_full_digits_le (t : IntTy) (s : List Char) (maxLength : Nat)
    (f1 f2 f3 f4 f5 : Bool) :
    (evaluate_n_int_full t s maxLength true f1 f2 f3 f4 f5).2.2 ≤ maxLength := by
  unfold evaluate_n_int_full
  dsimp only
  have hq := base_literal_n_int_ok t s f3 f4 (sign_stage s f1).2 maxLength
  unfold StageOk at hq
  rcases hq.2.2 with h | h <;> omega

theorem evaluate_n_rat_full_digits_le (s : List Char) (maxLength : Nat)
    (f1 f2 f3 f4 f5 : Bool) :
    (evaluate_n_rat_full s maxLength true f1 f2 f3 f4 f5).2.2 ≤ maxLength := by
  unfold evaluate_n_rat_full
  dsimp only
  have hq := base_literal_n_rat_ok s f3 f4 (sign_stage s f1).2 maxLength
  rcases hQe : base_literal_n_rat s f3 f4 (sign_stage s f1).2 maxLength true
    with ⟨qv, qi, qd⟩
  rw [hQe] at hq
  dsimp only at hq ⊢
  by_cases hdot : f2 = true ∧ charAt s qi = '.' ∧ maxLength > qi
  · rw [if_pos hdot]
    dsimp only
    have hx := evaluate_floatpoint_literal_n_rat_ok s qv (qi + 1) (1 / 10) maxLength
    rcases hXe : evaluate_floatpoint_literal_n_rat s qv (qi + 1) (1 / 10) maxLength true
      with ⟨xv, xi, xd⟩
    rw [hXe] at hx
    dsimp only at hx ⊢
    by_cases hexp : f2 = true ∧ f5 = true
    · rw [if_pos hexp]
      dsimp only
      have hy := evaluate_exponent_literal_n_rat_ok s xv xi maxLength
      rcases hYe : evaluate_exponent_literal_n_rat s xv xi maxLength true with ⟨yv, yi, yd⟩
      rw [hYe] at hy
      dsimp only at hy ⊢
      unfold StageOk at hq hx hy
      rcases hq.2.2 with h1 | h1 <;> rcases hx.2.2 with h2 | h2 <;>
        rcases hy.2.2 with h3 | h3 <;> omega
    · rw [if_neg hexp]
      dsimp only
      unfold StageOk at hq hx
      rcases hq.2.2 with h1 | h1 <;> rcases hx.2.2 with h2 | h2 <;> omega
  · rw [if_neg hdot]
    by_cases hexp : f2 = true ∧ f5 = true
    · rw [if_pos hexp]
      dsimp only
      have hy := evaluate_exponent_literal_n_rat_ok s qv qi maxLength
      rcases hYe : evaluate_exponent_literal_n_rat s qv qi maxLength true with ⟨yv, yi, yd⟩
      rw [hYe] at hy
      dsimp only at hy ⊢
      unfold StageOk at hq hy
      rcases hq.2.2 with h1 | h1 <;> rcases hy.2.2 with h3 | h3 <;> omega
    · rw [if_neg hexp]
      dsimp only
      unfold StageOk at hq
      rcases hq.2.2 with h1 | h1 <;> omega

/-! When the cap can never bind (the whole source fits under `maxLength`),
every bounded stage computes the same value and cursor as its unbounded
counterpart. -/

theorem _get_cnti_le (i : Nat) (c : Bool) : _get_cnti i c ≤ i := by
  unfold _get_cnti
  split <;> omega

theorem evaluate_decimal_literal_n_int_eq (t : IntTy) (s : List Char) (u i maxLength : Nat)
    (charge : Bool) (hlen : s.length ≤ maxLength) :
    (evaluate_decimal_literal_n_int t s u i maxLength charge).1 =
        (evaluate_decimal_literal_int t s u i).1 ∧
      (evaluate_decimal_literal_n_int t s u i maxLength charge).2.1 =
        (evaluate_decimal_literal_int t s u i).2 := by
  unfold evaluate_decimal_literal_n_int evaluate_decimal_literal_int
  dsimp only
  exact scanLoopN_eq_scanLoop _ _ s maxLength hlen u i _ (_get_cnti_le i charge)

theorem evaluate_hexadecimal_literal_n_int_eq (t : IntTy) (s : List Char)
    (u i maxLength : Nat) (charge : Bool) (hlen : s.length ≤ maxLength) :
    (evaluate_hexadecimal_literal_n_int t s u i maxLength charge).1 =
        (evaluate_hexadecimal_literal_int t s u i).1 ∧
      (evaluate_hexadecimal_literal_n_int t s u i maxLength charge).2.1 =
        (evaluate_hexadecimal_literal_int t s u i).2 := by
  unfold evaluate_hexadecimal_literal_n_int evaluate_hexadecimal_literal_int
  dsimp only
  exact scanLoopN_eq_scanLoop _ _ s maxLength hlen u i _ (_get_cnti_le i charge)

theorem evaluate_binary_literal_n_int_eq (t : IntTy) (s : List Char) (u i maxLength : Nat)
    (charge : Bool) (hlen : s.length ≤ maxLength) :
    (evaluate_binary_literal_n_int t s u i maxLength charge).1 =
        (evaluate_binary_literal_int t s u i).1 ∧
      (evaluate_binary_literal_n_int t s u i maxLength charge).2.1 =
        (evaluate_binary_literal_int t s u i).2 := by
  unfold evaluate_binary_literal_n_int evaluate_binary_literal_int
  dsimp only
  exact scanLoopN_eq_scanLoop _ _ s maxLength hlen u i _ (_get_cnti_le i charge)

theorem evaluate_decimal_literal_n_rat_eq (s : List Char) (v : ℚ) (i maxLength : Nat)
    (charge : Bool) (hlen : s.length ≤ maxLength) :
    (evaluate_decimal_literal_n_rat s v i maxLength charge).1 =
        (evaluate_decimal_literal_rat s v i).1 ∧
      (evaluate_decimal_literal_n_rat s v i maxLength charge).2.1 =
        (evaluate_decimal_literal_rat s v i).2 := by
  unfold evaluate_decimal_literal_n_rat evaluate_decimal_literal_rat
  dsimp only
  exact scanLoopN_eq_scanLoop _ _ s maxLength hlen v i _ (_get_cnti_le i charge)

theorem evaluate_hexadecimal_literal_n_rat_eq (s : List Char) (v : ℚ) (i maxLength : Nat)
    (charge : Bool) (hlen : s.length ≤ maxLength) :
    (evaluate_hexadecimal_literal_n_rat s v i maxLength charge).1 =
        (evaluate_hexadecimal_literal_rat s v i).1 ∧
      (evaluate_hexadecimal_literal_n_rat s v i maxLength charge).2.1 =
        (evaluate_hexadecimal_literal_rat s v i).2 := by
  unfold evaluate_hexadecimal_literal_n_rat evaluate_hexadecimal_literal_rat
  dsimp only
  exact scanLoopN_eq_scanLoop _ _ s maxLength hlen v i _ (_get_cnti_le i charge)

theorem evaluate_binary_literal_n_rat_eq (s : List Char) (v : ℚ) (i maxLength : Nat)
    (charge : Bool) (hlen : s.length ≤ maxLength) :
    (evaluate_binary_literal_n_rat s v i maxLength charge).1 =
        (evaluate_binary_literal_rat s v i).1 ∧
      (evaluate_binary_literal_n_rat s v i maxLength charge).2.1 =
        (evaluate_binary_literal_rat s v i).2 := by
  unfold evaluate_binary_literal_n_rat evaluate_binary_literal_rat
  dsimp only
  exact scanLoopN_eq_scanLoop _ _ s maxLength hlen v i _ (_get_cnti_le i charge)

theorem evaluate_floatpoint_literal_n_rat_eq (s : List Char) (v : ℚ) (i : Nat) (place : ℚ)
    (maxLength : Nat) (charge : Bool) (hlen : s.length ≤ maxLength) :
    (evaluate_floatpoint_literal_n_rat s v i place maxLength charge).1 =
        (evaluate_floatpoint_literal_rat s v i place).1 ∧
      (evaluate_floatpoint_literal_n_rat s v i place maxLength charge).2.1 =
        (evaluate_floatpoint_literal_rat s v i place).2 := by
  unfold evaluate_floatpoint_literal_n_rat evaluate_floatpoint_literal_rat
  dsimp only
  have h := scanLoopN_eq_scanLoop is_decimal_ch fracStepQ s maxLength hlen (v, place) i
    (_get_cnti i charge) (_get_cnti_le i charge)
  exact ⟨congrArg Prod.fst h.1, h.2⟩

theorem evaluate_exponent_literal_n_rat_eq (s : List Char) (v : ℚ) (i maxLength : Nat)
    (charge : Bool) (hlen : s.length ≤ maxLength) :
    (evaluate_exponent_literal_n_rat s v i maxLength charge).1 =
        (evaluate_exponent_literal_rat s v i).1 ∧
      (evaluate_exponent_literal_n_rat s v i maxLength charge).2.1 =
        (evaluate_exponent_literal_rat s v i).2 := by
  unfold evaluate_exponent_literal_n_rat evaluate_exponent_literal_rat
  split
  · dsimp only
    split_ifs with hm hp
    · have h := scanLoopN_eq_scanLoop is_decimal_ch expStep s maxLength hlen 0 (i + 1 + 1)
        (_get_cnti i charge + 1 + 1) (by have := _get_cnti_le i charge; omega)
      exact ⟨by rw [h.1], h.2⟩
    · have h := scanLoopN_eq_scanLoop is_decimal_ch expStep s maxLength hlen 0 (i + 1 + 1)
        (_get_cnti i charge + 1 + 1) (by have := _get_cnti_le i charge; omega)
      exact ⟨by rw [h.1], h.2⟩
    · have h := scanLoopN_eq_scanLoop is_decimal_ch expStep s maxLength hlen 0 (i + 1)
        (_get_cnti i charge + 1) (by have := _get_cnti_le i charge; omega)
      exact ⟨by rw [h.1], h.2⟩
  · exact ⟨rfl, rfl⟩

theorem base_literal_n_int_eq (t : IntTy) (s : List Char) (f3 f4 : Bool)
    (i maxLength : Nat) (charge : Bool) (hlen : s.length ≤ maxLength) :
    (base_literal_n_int t s f3 f4 i maxLength charge).1 =
        (base_literal_int t s f3 f4 i).1 ∧
      (base_literal_n_int t s f3 f4 i maxLength charge).2.1 =
        (base_literal_int t s f3 f4 i).2 := by
  unfold base_literal_n_int base_literal_int
  split_ifs
  · exact evaluate_binary_literal_n_int_eq t s 0 (i + 2) maxLength charge hlen
  · exact evaluate_hexadecimal_literal_n_int_eq t s 0 (i + 2) maxLength charge hlen
  · exact evaluate_decimal_literal_n_int_eq t s 0 i maxLength charge hlen

theorem base_literal_n_rat_eq (s : List Char) (f3 f4 : Bool) (i maxLength : Nat)
    (charge : Bool) (hlen : s.length ≤ maxLength) :
    (base_literal_n_rat s f3 f4 i maxLength charge).1 =
        (base_literal_rat s f3 f4 i).1 ∧
      (base_literal_n_rat s f3 f4 i maxLength charge).2.1 =
        (base_literal_rat s f3 f4 i).2 := by
  unfold base_literal_n_rat base_literal_rat
  split_ifs
  · exact evaluate_binary_literal_n_rat_eq s 0 (i + 2) maxLength charge hlen
  · exact evaluate_hexadecimal_literal_n_rat_eq s 0 (i + 2) maxLength charge hlen
  · exact evaluate_decimal_literal_n_rat_eq s 0 i maxLength charge hlen

theorem evaluate_n_int_eq_evaluate_int (t : IntTy) (s : List Char) (maxLength : Nat)
    (f0 f1 f2 f3 f4 f5 : Bool) (hlen : s.length ≤ maxLength) :
    evaluate_n_int t s maxLength f0 f1 f2 f3 f4 f5 = evaluate_int t s f1 f2 f3 f4 f5 := by
  unfold evaluate_n_int evaluate_int evaluate_n_int_full evaluate_int_full
  dsimp only
  rw [(base_literal_n_int_eq t s f3 f4 (sign_stage s f1).2 maxLength f0 hlen).1]

/-! Scanning "-L" behind the consumed sign is the same as scanning L: every
stage only looks at the source from its cursor onward. -/

theorem base_literal_int_cons (t : IntTy) (a : Char) (s : List Char) (f3 f4 : Bool)
    (i : Nat) :
    base_literal_int t (a :: s) f3 f4 (i + 1) =
      ((base_literal_int t s f3 f4 i).1, (base_literal_int t s f3 f4 i).2 + 1) := by
  have hb : has_binary_prefix_at (a :: s) (i + 1) = has_binary_prefix_at s i := rfl
  have hh : has_hexadecimal_prefix_at (a :: s) (i + 1) = has_hexadecimal_prefix_at s i := rfl
  unfold base_literal_int evaluate_binary_literal_int evaluate_hexadecimal_literal_int
    evaluate_decimal_literal_int
  rw [hb, hh]
  split_ifs
  · rw [show i + 1 + 2 = i + 2 + 1 from by omega, scanLoop_cons]
  · rw [show i + 1 + 2 = i + 2 + 1 from by omega, scanLoop_cons]
  · rw [scanLoop_cons]

theorem base_literal_int_cons1 (t : IntTy) (a : Char) (s : List Char) (f3 f4 : Bool) :
    base_literal_int t (a :: s) f3 f4 1 =
      ((base_literal_int t s f3 f4 0).1, (base_literal_int t s f3 f4 0).2 + 1) :=
  base_literal_int_cons t a s f3 f4 0

theorem base_literal_rat_cons (a : Char) (s : List Char) (f3 f4 : Bool) (i : Nat) :
    base_literal_rat (a :: s) f3 f4 (i + 1) =
      ((base_literal_rat s f3 f4 i).1, (base_literal_rat s f3 f4 i).2 + 1) := by
  have hb : has_binary_prefix_at (a :: s) (i + 1) = has_binary_prefix_at s i := rfl
  have hh : has_hexadecimal_prefix_at (a :: s) (i + 1) = has_hexadecimal_prefix_at s i := rfl
  unfold base_literal_rat evaluate_binary_literal_rat evaluate_hexadecimal_literal_rat
    evaluate_decimal_literal_rat
  rw [hb, hh]
  split_ifs
  · rw [show i + 1 + 2 = i + 2 + 1 from by omega, scanLoop_cons]
  · rw [show i + 1 + 2 = i + 2 + 1 from by omega, scanLoop_cons]
  · rw [scanLoop_cons]

theorem base_literal_rat_cons1 (a : Char) (s : List Char) (f3 f4 : Bool) :
    base_literal_rat (a :: s) f3 f4 1 =
      ((base_literal_rat s f3 f4 0).1, (base_literal_rat s f3 f4 0).2 + 1) :=
  base_literal_rat_cons a s f3 f4 0

theorem evaluate_floatpoint_literal_rat_cons (a : Char) (s : List Char) (v : ℚ) (i : Nat)
    (place : ℚ) :
    evaluate_floatpoint_literal_rat (a :: s) v (i + 1) place =
      ((evaluate_floatpoint_literal_rat s v i place).1,
        (evaluate_floatpoint_literal_rat s v i place).2 + 1) := by
  unfold evaluate_floatpoint_literal_rat
  rw [scanLoop_cons]

theorem evaluate_exponent_literal_rat_cons (a : Char) (s : List Char) (v : ℚ) (i : Nat) :
    evaluate_exponent_literal_rat (a :: s) v (i + 1) =
      ((evaluate_exponent_literal_rat s v i).1,
        (evaluate_exponent_literal_rat s v i).2 + 1) := by
  unfold evaluate_exponent_literal_rat
  simp only [charAt_cons_succ]
  split_ifs with he hm hp
  · dsimp only
    rw [show i + 1 + 1 + 1 = i + 1 + 1 + 1 from rfl, scanLoop_cons]
  · dsimp only
    rw [scanLoop_cons]
  · dsimp only
    rw [scanLoop_cons]
  · rfl

/-- The accumulated pattern of the prefix-dispatch stays below the modulus
for any real target width (at least 4 bits, so that a hex digit fits the
zeroed low bits of the shift). -/
theorem base_literal_int_lt (t : IntTy) (h4 : 4 ≤ t.width) (s : List Char) (f3 f4 : Bool)
    (i : Nat) : (base_literal_int t s f3 f4 i).1 < t.modulus := by
  unfold base_literal_int evaluate_binary_literal_int evaluate_hexadecimal_literal_int
    evaluate_decimal_literal_int
  split_ifs
  · exact scanLoop_pres (P := fun u => u < t.modulus)
      (fun u c _ => binStepI_lt t (by omega) u c) 0 (i + 2) (modulus_pos t)
  · exact scanLoop_pres (P := fun u => u < t.modulus)
      (fun u c _ => hexStepI_lt t h4 u c) 0 (i + 2) (modulus_pos t)
  · exact scanLoop_pres (P := fun u => u < t.modulus)
      (fun u c _ => decStepI_lt t u c) 0 i (modulus_pos t)

theorem evaluate_int_full_lt (t : IntTy) (h4 : 4 ≤ t.width) (s : List Char)
    (f1 f2 f3 f4 f5 : Bool) : (evaluate_int_full t s f1 f2 f3 f4 f5).1 < t.modulus := by
  unfold evaluate_int_full
  dsimp only
  split
  · exact mulSignPat_lt t _ _ (base_literal_int_lt t h4 s f3 f4 _)
  · exact base_literal_int_lt t h4 s f3 f4 _

/-- The only pattern reading back as the type's minimum is 2^(width-1). -/
theorem toInt_eq_min_iff (t : IntTy) (hw : 1 ≤ t.width) (hs : t.signed = true) (u : Nat)
    (hu : u < t.modulus) :
    t.toInt u = -(2 ^ (t.width - 1) : ℤ) ↔ u = 2 ^ (t.width - 1) := by
  have hM : t.modulus = 2 ^ (t.width - 1) * 2 := by
    rw [IntTy.modulus, ← pow_succ]
    congr 1
    omega
  have hN : 0 < 2 ^ (t.width - 1) := Nat.two_pow_pos _
  have hcast : (2 : ℤ) ^ (t.width - 1) = ((2 ^ (t.width - 1) : ℕ) : ℤ) := by
    push_cast
    ring
  unfold IntTy.toInt
  split_ifs with h
  · rw [hcast]
    omega
  · have hnot : ¬ 2 ^ (t.width - 1) ≤ u := fun hc => h ⟨hs, hc⟩
    rw [hcast]
    omega

theorem mulSignPat_positive (t : IntTy) (u : Nat) : mulSignPat t Sign.positive u = u := rfl

theorem evaluate_int_full_neg_cons (t : IntTy) (s : List Char) (f2 f3 f4 f5 : Bool)
    (h1 : charAt s 0 ≠ '-') (h2 : charAt s 0 ≠ '+') :
    (evaluate_int_full t ('-' :: s) true f2 f3 f4 f5).1 =
      mulSignPat t Sign.negative (evaluate_int_full t s true f2 f3 f4 f5).1 := by
  unfold evaluate_int_full
  rw [sign_stage_neg_cons, sign_stage_none s true h1 h2]
  dsimp only
  rw [base_literal_int_cons1 t '-' s f3 f4]
  dsimp only
  simp only [eq_self_iff_true, if_true, mulSignPat_positive]

theorem evaluate_rat_full_neg_cons (s : List Char) (f2 f3 f4 f5 : Bool)
    (h1 : charAt s 0 ≠ '-') (h2 : charAt s 0 ≠ '+') :
    (evaluate_rat_full ('-' :: s) true f2 f3 f4 f5).1 =
      - (evaluate_rat_full s true f2 f3 f4 f5).1 := by
  unfold evaluate_rat_full
  rw [sign_stage_neg_cons, sign_stage_none s true h1 h2]
  dsimp only
  rw [base_literal_rat_cons1 '-' s f3 f4]
  rcases hQ : base_literal_rat s f3 f4 0 with ⟨qv, qi⟩
  dsimp only
  simp only [charAt_cons_succ]
  by_cases hdot : f2 = true ∧ charAt s qi = '.'
  · rw [if_pos hdot, if_pos hdot]
    rw [evaluate_floatpoint_literal_rat_cons '-' s qv (qi + 1) (1 / 10)]
    rcases hX : evaluate_floatpoint_literal_rat s qv (qi + 1) (1 / 10) with ⟨xv, xi⟩
    by_cases hexp : f2 = true ∧ f5 = true
    · rw [if_pos hexp, if_pos hexp]
      dsimp only
      rw [evaluate_exponent_literal_rat_cons '-' s xv xi]
      rcases hY : evaluate_exponent_literal_rat s xv xi with ⟨yv, yi⟩
      simp only [eq_self_iff_true, if_true, Sign.toInt]
      push_cast
      ring
    · rw [if_neg hexp, if_neg hexp]
      simp only [eq_self_iff_true, if_true, Sign.toInt]
      push_cast
      ring
  · rw [if_neg hdot, if_neg hdot]
    by_cases hexp : f2 = true ∧ f5 = true
    · rw [if_pos hexp, if_pos hexp]
      dsimp only
      rw [evaluate_exponent_literal_rat_cons '-' s qv qi]
      rcases hY : evaluate_exponent_literal_rat s qv qi with ⟨yv, yi⟩
      simp only [eq_self_iff_true, if_true, Sign.toInt]
      push_cast
      ring
    · rw [if_neg hexp, if_neg hexp]
      simp only [eq_self_iff_true, if_true, Sign.toInt]
      push_cast
      ring

theorem evaluate_int_neg_cons (t : IntTy) (s : List Char) (f2 f3 f4 f5 : Bool)
    (hw : 8 ≤ t.width) (hs : t.signed = true)
    (h1 : charAt s 0 ≠ '-') (h2 : charAt s 0 ≠ '+')
    (hov : evaluate_int t s true f2 f3 f4 f5 ≠ -(2 ^ (t.width - 1) : ℤ)) :
    evaluate_int t ('-' :: s) true f2 f3 f4 f5 = - evaluate_int t s true f2 f3 f4 f5 := by
  have hu : (evaluate_int_full t s true f2 f3 f4 f5).1 < t.modulus :=
    evaluate_int_full_lt t (by omega) s true f2 f3 f4 f5
  have hne : (evaluate_int_full t s true f2 f3 f4 f5).1 ≠ 2 ^ (t.width - 1) := by
    intro hc
    exact hov ((toInt_eq_min_iff t (by omega) hs _ hu).mpr hc)
  unfold evaluate_int
  rw [evaluate_int_full_neg_cons t s f2 f3 f4 f5 h1 h2]
  exact toInt_mulSignPat_neg t (by omega) hs _ hu hne

theorem evaluate_n_rat_eq_evaluate_rat (s : List Char) (maxLength : Nat)
    (f0 f1 f2 f3 f4 f5 : Bool) (hlen : s.length ≤ maxLength) :
    evaluate_n_rat s maxLength f0 f1 f2 f3 f4 f5 = evaluate_rat s f1 f2 f3 f4 f5 := by
  unfold evaluate_n_rat evaluate_rat evaluate_n_rat_full evaluate_rat_full
  dsimp only
  have hbase := base_literal_n_rat_eq s f3 f4 (sign_stage s f1).2 maxLength f0 hlen
  rcases hQN : base_literal_n_rat s f3 f4 (sign_stage s f1).2 maxLength f0
    with ⟨qv, qi, qd⟩
  rcases hQ : base_literal_rat s f3 f4 (sign_stage s f1).2 with ⟨qv', qi'⟩
  rw [hQN, hQ] at hbase
  dsimp only at hbase
  obtain ⟨hqv, hqi⟩ := hbase
  subst hqv
  subst hqi
  dsimp only
  have hdot_iff : (f2 = true ∧ charAt s qi = '.' ∧ maxLength > qi) ↔
      (f2 = true ∧ charAt s qi = '.') := by
    constructor
    · rintro ⟨h1, h2, _⟩
      exact ⟨h1, h2⟩
    · rintro ⟨h1, h2⟩
      refine ⟨h1, h2, ?_⟩
      have : qi < s.length := lt_length_of_charAt_ne (by rw [h2]; decide)
      omega
  by_cases hdot : f2 = true ∧ charAt s qi = '.'
  · rw [if_pos (hdot_iff.mpr hdot), if_pos hdot]
    dsimp only
    have hfrac := evaluate_floatpoint_literal_n_rat_eq s qv (qi + 1) (1 / 10) maxLength f0
      hlen
    rcases hXN : evaluate_floatpoint_literal_n_rat s qv (qi + 1) (1 / 10) maxLength f0
      with ⟨xv, xi, xd⟩
    rcases hX : evaluate_floatpoint_literal_rat s qv (qi + 1) (1 / 10) with ⟨xv', xi'⟩
    rw [hXN, hX] at hfrac
    dsimp only at hfrac
    obtain ⟨hxv, hxi⟩ := hfrac
    subst hxv
    subst hxi
    dsimp only
    by_cases hexp : f2 = true ∧ f5 = true
    · rw [if_pos hexp, if_pos hexp]
      dsimp only
      have hexpo := evaluate_exponent_literal_n_rat_eq s xv xi maxLength f0 hlen
      rw [hexpo.1]
    · rw [if_neg hexp, if_neg hexp]
  · rw [if_neg (fun hc => hdot (hdot_iff.mp hc)), if_neg hdot]
    dsimp only
    by_cases hexp : f2 = true ∧ f5 = true
    · rw [if_pos hexp, if_pos hexp]
      dsimp only
      have hexpo := evaluate_exponent_literal_n_rat_eq s qv qi maxLength f0 hlen
      rw [hexpo.1]
    · rw [if_neg hexp, if_neg hexp]

end seval

/-- Claim C9.  With the default cap `maxLength = SIZE_MAX` (and either cap
accounting policy), `evaluate_n` returns exactly the same value as `evaluate`
on the same source and feature flags, for integral and floating-point target
types alike; the sentinel-terminated source must fit in a size_t, which every
C string does. -/
theorem C9_default_cap_refines (t : seval.IntTy) (s : List Char) (f0 f1 f2 f3 f4 f5 : Bool)
    (hlen : s.length ≤ seval.SIZE_MAX) :
    seval.evaluate_n_int t s seval.SIZE_MAX f0 f1 f2 f3 f4 f5 =
        seval.evaluate_int t s f1 f2 f3 f4 f5 ∧
      seval.evaluate_n_rat s seval.SIZE_MAX f0 f1 f2 f3 f4 f5 =
        seval.evaluate_rat s f1 f2 f3 f4 f5 :=
  ⟨seval.evaluate_n_int_eq_evaluate_int t s seval.SIZE_MAX f0 f1 f2 f3 f4 f5 hlen,
    seval.evaluate_n_rat_eq_evaluate_rat s seval.SIZE_MAX f0 f1 f2 f3 f4 f5 hlen⟩

/-- Claim C9, witness: the refinement instantiated at `evaluate<int32_t>`
and the source "0x1A3" with all flags enabled. -/
theorem C9_default_cap_refines_witness :
    seval.evaluate_n_int seval.i32 ['0', 'x', '1', 'A', '3'] seval.SIZE_MAX
        true true true true true true =
      seval.evaluate_int seval.i32 ['0', 'x', '1', 'A', '3'] true true true true true :=
  (C9_default_cap_refines seval.i32 ['0', 'x', '1', 'A', '3'] true true true true true true
    (by decide)).1

/-- Claim C7.  For a literal L that does not itself begin with a sign,
`evaluate("-" + L)` is the negation of `evaluate(L)` with the same remaining
flags, for every signed target: for fixed-width signed integral types
(supported widths are at least 8 bits) provided the result is not the
unnegatable minimum value, and for floating-point targets unconditionally.
The sign is applied once, as a final multiplication of the accumulator. -/
theorem C7_sign_independence :
    (∀ (t : seval.IntTy) (s : List Char) (f2 f3 f4 f5 : Bool), 8 ≤ t.width →
        t.signed = true → seval.charAt s 0 ≠ '-' → seval.charAt s 0 ≠ '+' →
        seval.evaluate_int t s true f2 f3 f4 f5 ≠ -(2 ^ (t.width - 1) : ℤ) →
        seval.evaluate_int t ('-' :: s) true f2 f3 f4 f5 =
          - seval.evaluate_int t s true f2 f3 f4 f5) ∧
      (∀ (s : List Char) (f2 f3 f4 f5 : Bool),
        seval.charAt s 0 ≠ '-' → seval.charAt s 0 ≠ '+' →
        seval.evaluate_rat ('-' :: s) true f2 f3 f4 f5 =
          - seval.evaluate_rat s true f2 f3 f4 f5) :=
  ⟨fun t s f2 f3 f4 f5 hw hs h1 h2 hov =>
      seval.evaluate_int_neg_cons t s f2 f3 f4 f5 hw hs h1 h2 hov,
    fun s f2 f3 f4 f5 h1 h2 =>
      seval.evaluate_rat_full_neg_cons s f2 f3 f4 f5 h1 h2⟩

/-- Claim C7, witness: "-5" evaluates to the negation of "5" for the signed
8-bit integral target and for the floating-point target. -/
theorem C7_sign_independence_witness :
    seval.evaluate_int seval.i8 ['-', '5'] true true true true true =
        - seval.evaluate_int seval.i8 ['5'] true true true true true ∧
      seval.evaluate_rat ['-', '5'] true true true true true =
        - seval.evaluate_rat ['5'] true true true true true :=
  ⟨C7_sign_independence.1 seval.i8 ['5'] true true true true (by decide) (by decide)
      (by decide) (by decide) (by decide),
    C7_sign_independence.2 ['5'] true true true true (by decide) (by decide)⟩

/-- Claim C3, counterexample.  With `chargeSignAndPrefixToCap = false` each
stage's counter restarts at 0, so the cap is NOT shared across stages: on
"12.34" with maxLength = 3 the integer stage consumes 2 digits and the
fractional stage another 2, so 4 digit characters are consumed in one call,
exceeding the cap of 3. -/
theorem C3_counterexample :
    ¬ ((seval.evaluate_n_rat_full ['1', '2', '.', '3', '4'] 3 false true true true true
      true).2.2 ≤ 3) := by
  decide

/-- Claim C3 (amended).  When sign and prefix are charged to the cap
(`consideSignAndPrefixInMaxLength = true`), the integer-digit, fractional-digit
and exponent-digit stages of one `evaluate_n` call together never consume
more than `maxLength` digit characters, for every input, cap, target kind and
flag combination; with the flag false the guarantee is per-stage only. -/
theorem C3_shared_cap :
    (∀ (t : seval.IntTy) (s : List Char) (maxLength : Nat) (f1 f2 f3 f4 f5 : Bool),
        (seval.evaluate_n_int_full t s maxLength true f1 f2 f3 f4 f5).2.2 ≤ maxLength) ∧
      (∀ (s : List Char) (maxLength : Nat) (f1 f2 f3 f4 f5 : Bool),
        (seval.evaluate_n_rat_full s maxLength true f1 f2 f3 f4 f5).2.2 ≤ maxLength) :=
  ⟨fun t s mL f1 f2 f3 f4 f5 => seval.evaluate_n_int_full_digits_le t s mL f1 f2 f3 f4 f5,
    fun s mL f1 f2 f3 f4 f5 => seval.evaluate_n_rat_full_digits_le s mL f1 f2 f3 f4 f5⟩

/-- Claim C8.  The cursor is monotonically non-decreasing: the shared digit
loops of both variants only move the cursor forward, and in every call to
`evaluate` or `evaluate_n` (integral or floating-point target, any flags) the
final cursor never exceeds the sentinel position `s.length`. -/
theorem C8_cursor_monotone_bounded :
    (∀ (α : Type) (g : Char → Bool) (f : α → Char → α) (s : List Char) (st : α) (i : Nat),
        i ≤ (seval.scanLoop g f s st i).2) ∧
      (∀ (α : Type) (g : Char → Bool) (f : α → Char → α) (s : List Char) (maxLength : Nat)
          (st : α) (i cnt : Nat), i ≤ (seval.scanLoopN g f s maxLength st i cnt).2.1) ∧
      (∀ (t : seval.IntTy) (s : List Char) (f1 f2 f3 f4 f5 : Bool),
        (seval.evaluate_int_full t s f1 f2 f3 f4 f5).2 ≤ s.length) ∧
      (∀ (s : List Char) (f1 f2 f3 f4 f5 : Bool),
        (seval.evaluate_rat_full s f1 f2 f3 f4 f5).2 ≤ s.length) ∧
      (∀ (t : seval.IntTy) (s : List Char) (maxLength : Nat) (f0 f1 f2 f3 f4 f5 : Bool),
        (seval.evaluate_n_int_full t s maxLength f0 f1 f2 f3 f4 f5).2.1 ≤ s.length) ∧
      (∀ (s : List Char) (maxLength : Nat) (f0 f1 f2 f3 f4 f5 : Bool),
        (seval.evaluate_n_rat_full s maxLength f0 f1 f2 f3 f4 f5).2.1 ≤ s.length) :=
  ⟨fun _ g f s st i => seval.scanLoop_mono g f s st i,
    fun _ g f s mL st i cnt => seval.scanLoopN_i_mono g f s mL st i cnt,
    fun t s f1 f2 f3 f4 f5 => seval.evaluate_int_full_le t s f1 f2 f3 f4 f5,
    fun s f1 f2 f3 f4 f5 => seval.evaluate_rat_full_le s f1 f2 f3 f4 f5,
    fun t s mL f0 f1 f2 f3 f4 f5 => seval.evaluate_n_int_full_le t s mL f0 f1 f2 f3 f4 f5,
    fun s mL f0 f1 f2 f3 f4 f5 => seval.evaluate_n_rat_full_le s mL f0 f1 f2 f3 f4 f5⟩

/-- Claim C10.  With consideSign disabled, a leading '-' or '+' fails every
prefix and digit test: nothing is consumed (the final cursor is 0) and both
variants return 0 for every target type, cap and remaining flags. -/
theorem C10_sign_disabled_zero (t : seval.IntTy) (s : List Char) (maxLength : Nat)
    (f0 f2 f3 f4 f5 : Bool) (h : seval.charAt s 0 = '-' ∨ seval.charAt s 0 = '+') :
    seval.evaluate_int t s false f2 f3 f4 f5 = 0 ∧
      (seval.evaluate_int_full t s false f2 f3 f4 f5).2 = 0 ∧
      seval.evaluate_rat s false f2 f3 f4 f5 = 0 ∧
      (seval.evaluate_rat_full s false f2 f3 f4 f5).2 = 0 ∧
      seval.evaluate_n_int t s maxLength f0 false f2 f3 f4 f5 = 0 ∧
      seval.evaluate_n_rat s maxLength f0 false f2 f3 f4 f5 = 0 ∧
      (seval.evaluate_n_rat_full s maxLength f0 false f2 f3 f4 f5).2.1 = 0 := by
  have hnz : seval.charAt s 0 ≠ '0' := by rcases h with h | h <;> rw [h] <;> decide
  have hhex : seval.is_hexadecimal_ch (seval.charAt s 0) = false := by
    rcases h with h | h <;> rw [h] <;> decide
  have hdot : seval.charAt s 0 ≠ '.' := by rcases h with h | h <;> rw [h] <;> decide
  have he : seval.charAt s 0 ≠ 'e' := by rcases h with h | h <;> rw [h] <;> decide
  have hE : seval.charAt s 0 ≠ 'E' := by rcases h with h | h <;> rw [h] <;> decide
  have hint : seval.evaluate_int_full t s false f2 f3 f4 f5 = (0, 0) := by
    unfold seval.evaluate_int_full
    rw [seval.sign_stage_false]
    dsimp only
    rw [seval.base_literal_int_stuck t s f3 f4 hnz hhex]
    simp
  have hrat : seval.evaluate_rat_full s false f2 f3 f4 f5 = (0, 0) := by
    unfold seval.evaluate_rat_full
    rw [seval.sign_stage_false]
    dsimp only
    rw [seval.base_literal_rat_stuck s f3 f4 hnz hhex]
    dsimp only
    rw [if_neg (show ¬ (f2 = true ∧ seval.charAt s 0 = '.') from fun hc => hdot hc.2)]
    dsimp only
    by_cases hef : f2 = true ∧ f5 = true
    · rw [if_pos hef, seval.evaluate_exponent_literal_rat_stop 0 he hE]
      simp
    · rw [if_neg hef]
      simp
  have hnint : seval.evaluate_n_int_full t s maxLength f0 false f2 f3 f4 f5 = (0, 0, 0) := by
    unfold seval.evaluate_n_int_full
    rw [seval.sign_stage_false]
    dsimp only
    rw [seval.base_literal_n_int_stuck t s f3 f4 maxLength f0 hnz hhex]
    simp
  have hnrat : seval.evaluate_n_rat_full s maxLength f0 false f2 f3 f4 f5 = (0, 0, 0) := by
    unfold seval.evaluate_n_rat_full
    rw [seval.sign_stage_false]
    dsimp only
    rw [seval.base_literal_n_rat_stuck s f3 f4 maxLength f0 hnz hhex]
    dsimp only
    rw [if_neg (show ¬ (f2 = true ∧ seval.charAt s 0 = '.' ∧ maxLength > 0) from
      fun hc => hdot hc.2.1)]
    dsimp only
    by_cases hef : f2 = true ∧ f5 = true
    · rw [if_pos hef, seval.evaluate_exponent_literal_n_rat_stop 0 maxLength f0 he hE]
      simp
    · rw [if_neg hef]
      simp
  refine ⟨?_, ?_, ?_, ?_, ?_, ?_, ?_⟩
  · unfold seval.evaluate_int
    rw [hint]
    exact seval.IntTy.toInt_zero t
  · rw [hint]
  · unfold seval.evaluate_rat
    rw [hrat]
  · rw [hrat]
  · unfold seval.evaluate_n_int
    rw [hnint]
    exact seval.IntTy.toInt_zero t
  · unfold seval.evaluate_n_rat
    rw [hnrat]
  · rw [hnrat]

/-- Claim C10, witness: `evaluate<int8_t>("-5", consideSign=false)` is 0 and
consumes nothing. -/
theorem C10_sign_disabled_zero_witness :
    seval.evaluate_int seval.i8 ['-', '5'] false true true true true = 0 ∧
      seval.evaluate_rat ['-', '5'] false true true true true = 0 :=
  have h := C10_sign_disabled_zero seval.i8 ['-', '5'] 10 true true true true true
    (Or.inl rfl)
  ⟨h.1, h.2.2.1⟩

/-- Claim C1.  The C++17 branch of `evaluate_decimal_literal` (the branch the
repository compiles) guards its loop with `is_hexadecimal_ch` rather than
`is_decimal_ch`, so the decimal stage consumes and accumulates the letter 'a'
of "1a": `evaluate<int>("1a")` is 1*10 + ('a'-'0') = 59 rather than stopping
at 'a' with 1, in both the unbounded and the bounded variants.  This theorem
evaluates the embedded code at that failing input. -/
theorem C1_decimal_stage_eval :
    seval.evaluate_int seval.i32 ['1', 'a'] true true true true true = 59 ∧
      seval.evaluate_n_int seval.i32 ['1', 'a'] seval.SIZE_MAX true true true true true true
        = 59 ∧
      (59 : ℤ) ≠ 1 := by
  decide

/-- Claim C2, counterexample.  The claim asserts that for a floating-point
target type a hex literal accumulates (`evaluate` of "0x1A" yields 26); in
the C++17 branch the floating-point hex loop only advances the cursor, so the
result is 0, not 26. -/
theorem C2_counterexample :
    ¬ (seval.evaluate_rat ['0', 'x', '1', 'A'] true true true true true = 26) := by
  intro h
  have h0 : seval.evaluate_rat ['0', 'x', '1', 'A'] true true true true true = 0 := by
    simp [seval.evaluate_rat, seval.evaluate_rat_full, seval.sign_stage, seval.get_sign,
      seval.base_literal_rat, seval.has_binary_prefix_at, seval.has_hexadecimal_prefix_at,
      seval.charAt, seval.sentinel, seval.evaluate_hexadecimal_literal_rat, seval.scanLoop,
      seval.scanLoopF, seval.is_hexadecimal_ch, seval.is_decimal_ch, seval.is_lower_hex_ch,
      seval.is_upper_hex_ch, seval.skipStepQ, seval.evaluate_exponent_literal_rat,
      seval.Sign.toInt]
  rw [h0] at h
  norm_num at h

/-- Claim C2 (amended).  For integral target types one hexadecimal step is
exactly `value*16 + digit` reduced to the target width (the 4-bit shift-and-or
of the source equals it); for floating-point target types the hexadecimal
loop, like the binary loop, advances over digits without accumulating, so a
floating-point `evaluate` of "0x1A" yields 0 and of "0b101" also yields 0. -/
theorem C2_hex_accumulation :
    (∀ (t : seval.IntTy) (u : Nat) (c : Char), 4 ≤ t.width →
        seval.hexStepI t u c = (u * 16 + seval.evaluate_hexadecimal_ch_nat c) % t.modulus) ∧
      seval.evaluate_rat ['0', 'x', '1', 'A'] true true true true true = 0 ∧
      seval.evaluate_rat ['0', 'b', '1', '0', '1'] true true true true true = 0 := by
  refine ⟨fun t u c h4 => seval.hexStepI_eq t h4 u c, ?_, ?_⟩ <;>
    simp [seval.evaluate_rat, seval.evaluate_rat_full, seval.sign_stage, seval.get_sign,
      seval.base_literal_rat, seval.has_binary_prefix_at, seval.has_hexadecimal_prefix_at,
      seval.charAt, seval.sentinel, seval.evaluate_hexadecimal_literal_rat,
      seval.evaluate_binary_literal_rat, seval.scanLoop, seval.scanLoopF,
      seval.is_hexadecimal_ch, seval.is_decimal_ch, seval.is_lower_hex_ch,
      seval.is_upper_hex_ch, seval.is_binary_ch, seval.skipStepQ,
      seval.evaluate_exponent_literal_rat, seval.Sign.toInt]

/-- Claim C2, witness for the amended theorem: the integral hexadecimal step
instantiated at a 32-bit target, accumulator 5 and digit 'A'. -/
theorem C2_hex_accumulation_witness :
    seval.hexStepI seval.i32 5 'A' =
      (5 * 16 + seval.evaluate_hexadecimal_ch_nat 'A') % (seval.i32).modulus :=
  C2_hex_accumulation.1 seval.i32 5 'A' (by decide)

/-- Claim C4.  The claim says an unrecognized leading character (neither
sign, prefix, nor digit of the active base) makes `evaluate` return 0, naming
"f5" and "zzz" as examples.  Because the C++17 decimal loop is guarded by
`is_hexadecimal_ch`, 'f' is consumed and accumulated: `evaluate<int>("f5")`
is ('f'-'0')*10 + 5 = 545, not 0; "zzz" does return 0. -/
theorem C4_unrecognized_leading_eval :
    seval.evaluate_int seval.i32 ['f', '5'] true true true true true = 545 ∧
      seval.evaluate_int seval.i32 ['z', 'z', 'z'] true true true true true = 0 ∧
      (545 : ℤ) ≠ 0 := by
  decide

/-- Claim C5.  The three bounded-length test vectors for an integral target:
`evaluate_n("12345", 4)` = 1234; `evaluate_n("0x1A3", 4)` with sign/prefix
charged = 0x1A = 26; `evaluate_n("0x1A3", 3, chargeSignAndPrefix=false)` =
0x1A3 = 419. -/
theorem C5_bounded_vectors :
    seval.evaluate_n_int seval.i32 ['1', '2', '3', '4', '5'] 4 true true true true true true
        = 1234 ∧
      seval.evaluate_n_int seval.i32 ['0', 'x', '1', 'A', '3'] 4 true true true true true true
        = 26 ∧
      seval.evaluate_n_int seval.i32 ['0', 'x', '1', 'A', '3'] 3 false true true true true true
        = 419 := by
  decide

/-- Claim C6.  For each supported fixed-width integral target type, the
decimal representation of the type's extreme values round-trips through
`evaluate` under native wraparound arithmetic: the maxima for all eight
types, the minima (with leading '-') for the signed ones, and "0" for the
unsigned ones.  In particular "-128" → -128 for int8_t even though the
magnitude 128 wraps before the final sign multiplication. -/
theorem C6_extreme_roundtrip :
    seval.evaluate_int seval.i8 ['1', '2', '7'] true true true true true = 127 ∧
      seval.evaluate_int seval.i8 ['-', '1', '2', '8'] true true true true true = -128 ∧
      seval.evaluate_int seval.u8 ['2', '5', '5'] true true true true true = 255 ∧
      seval.evaluate_int seval.u8 ['0'] true true true true true = 0 ∧
      seval.evaluate_int seval.i16 ['3', '2', '7', '6', '7'] true true true true true
        = 32767 ∧
      seval.evaluate_int seval.i16 ['-', '3', '2', '7', '6', '8'] true true true true true
        = -32768 ∧
      seval.evaluate_int seval.u16 ['6', '5', '5', '3', '5'] true true true true true
        = 65535 ∧
      seval.evaluate_int seval.u16 ['0'] true true true true true = 0 ∧
      seval.evaluate_int seval.i32 ['2', '1', '4', '7', '4', '8', '3', '6', '4', '7']
        true true true true true = 2147483647 ∧
      seval.evaluate_int seval.i32 ['-', '2', '1', '4', '7', '4', '8', '3', '6', '4', '8']
        true true true true true = -2147483648 ∧
      seval.evaluate_int seval.u32 ['4', '2', '9', '4', '9', '6', '7', '2', '9', '5']
        true true true true true = 4294967295 ∧
      seval.evaluate_int seval.u32 ['0'] true true true true true = 0 ∧
      seval.evaluate_int seval.i64
        ['9', '2', '2', '3', '3', '7', '2', '0', '3', '6', '8', '5', '4', '7', '7', '5',
          '8', '0', '7'] true true true true true = 9223372036854775807 ∧
      seval.evaluate_int seval.i64
        ['-', '9', '2', '2', '3', '3', '7', '2', '0', '3', '6', '8', '5', '4', '7', '7',
          '5', '8', '0', '8'] true true true true true = -9223372036854775808 ∧
      seval.evaluate_int seval.u64
        ['1', '8', '4', '4', '6', '7', '4', '4', '0', '7', '3', '7', '0', '9', '5', '5',
          '1', '6', '1', '5'] true true true true true = 18446744073709551615 ∧
      seval.evaluate_int seval.u64 ['0'] true true true true true = 0 := by
  decide
